import Mathlib

/-!
Verification development for the budget-request approval microservice.

The embedding translates the TypeScript sources into Lean:
* monetary values (Prisma Decimal) are modelled as rationals (`Rat`),
* the database tables (`budgetRequest`, `budgetRequestApprovalHistory`,
  `cachedDepartmentBudget`, `budgetRequestNotification`) are lists inside
  explicit state records, threaded through every operation,
* `Date` columns and timestamps are omitted (no clock is modelled),
* the development has two layers.  The `Store`-level operations treat the
  Redis detail cache `br:id` as transparent (a read serves the database
  row); the claims proved over them do not depend on which of the cached or
  database row a lookup served.  The `World`-level operations further down
  thread that cache explicitly (`findByIdCached` with its read-through and
  the fallible `redis.del` of `invalidateBudgetRequest`), because the status
  guards and the reservation invariant DO depend on stale cached reads,
* fallible primitive database writes consume an `Oracle` (one Bool per write
  site, in program order); a `prisma.$transaction` block is a single oracle
  step that applies all of its writes or none of them,
* downstream deliveries (audit-log POST, webhook POSTs, e-mail send, Finance
  reservation POST) are driven by failure flags in a `DownstreamEnv`; the
  sources wrap each of them in try/catch whose handler only logs, which the
  embedding renders as a `List String` of log lines in the result.
-/

/-- Budget-request lifecycle status, from the Prisma enum in
`src/types/budgetRequest.types.ts`. -/
inductive Status where
  | DRAFT
  | SUBMITTED
  | APPROVED
  | REJECTED
  | CANCELLED
  deriving Repr, DecidableEq

/-- One row of the `budgetRequest` table (the columns the verified claims
touch; `Date` columns and the item/SLA columns are omitted). -/
structure BudgetRequest where
  id : Nat
  department : String
  createdBy : String
  amountRequested : Rat
  purpose : String
  status : Status
  reservedAmount : Option Rat
  bufferAmount : Option Rat
  bufferPercentage : Option Rat
  isReserved : Bool
  budgetShortfall : Rat
  departmentBudgetRemaining : Option Rat
  budgetBefore : Option Rat
  reviewedBy : Option String
  reviewNotes : Option String
  approvedBy : Option String
  rejectedBy : Option String
  updatedBy : Option String
  isDeleted : Bool
  deriving Repr, DecidableEq

/-- One append-only row of `budgetRequestApprovalHistory`. -/
structure HistoryRow where
  budgetRequestId : Nat
  fromStatus : Option Status
  toStatus : Status
  changedBy : String
  changedByRole : Option String
  action : String
  comments : Option String
  amountBefore : Option Rat
  amountAfter : Option Rat
  deriving Repr, DecidableEq

/-- The request store: `budgetRequest` rows, `budgetRequestApprovalHistory`
rows, and the autoincrement counter that hands out fresh request ids. -/
structure Store where
  requests : List BudgetRequest
  history : List HistoryRow
  nextId : Nat
  deriving Repr, DecidableEq

/-- The authenticated caller (`req.user`), from `UserContext`. -/
structure UserCtx where
  id : String
  username : String
  role : String
  department : String
  deriving Repr, DecidableEq

/-- Does the character list start with the given pattern? -/
def listStartsWith : List Char → List Char → Bool
  | _, [] => true
  | [], _ :: _ => false
  | c :: cs, p :: ps => c == p && listStartsWith cs ps

/-- Substring search on character lists (JavaScript `String.includes`). -/
def listContainsSub : List Char → List Char → Bool
  | [], pat => pat.isEmpty
  | c :: rest, pat => listStartsWith (c :: rest) pat || listContainsSub rest pat

/-- JavaScript substring test `s.includes(pat)`. -/
def strContains (s pat : String) : Bool :=
  listContainsSub s.data pat.data

/-- The admin test `role.toLowerCase().includes("admin")` used by the
controller and middleware. -/
def roleIsAdmin (role : String) : Bool :=
  listContainsSub (role.data.map Char.toLower) "admin".data

/-- The `prisma.budgetRequest.findUnique({ where: { id } })` database fetch
inside `service.findById` (src/services/budgetRequest.service.ts); it
performs no `isDeleted` filtering.  The full read-through function with its
Redis branch is `findByIdCached` further down; this bare fetch doubles as
`service.findById` in the transparent-cache layer. -/
def findById (s : Store) (id : Nat) : Option BudgetRequest :=
  s.requests.find? (fun r => r.id == id)

/-- `prisma.budgetRequest.update({ where: { id }, data })`: rewrite the row
with the given unique id. -/
def updateReq (l : List BudgetRequest) (id : Nat) (f : BudgetRequest → BudgetRequest) :
    List BudgetRequest :=
  l.map (fun r => if r.id = id then f r else r)

/-- The list filter built by `listBudgetRequests`
(src/controllers/budgetRequest.controller.ts): the base filter is always
`{ isDeleted: false }`, and status/department filters are added when the
query supplies them. -/
def listBudgetRequests (s : Store) (status? : Option Status) (department? : Option String) :
    List BudgetRequest :=
  s.requests.filter (fun r =>
    r.isDeleted = false
      && (match status? with | none => true | some st => r.status = st)
      && (match department? with | none => true | some d => r.department = d))

example : roleIsAdmin "Finance Admin" = true := by decide
example : roleIsAdmin "Finance Staff" = false := by decide
example : strContains "Finance Admin" "Admin" = true := by decide

/-- Oracle deciding whether the n-th fallible primitive database or cache
write of one service call succeeds (indices in program order). -/
def Oracle : Type := Nat → Bool

/-- A webhook subscriber registered in `SystemConfig` under the per-event
key, as read by `WebhookDispatcher.getWebhookSubscriptions`. -/
structure Subscriber where
  url : String
  secret : Option String
  deriving Repr, DecidableEq

/-- The settled outcome of one webhook POST attempt
(`src/webhooks/dispatcher.ts`, `sendWebhook`): the try/catch inside
`sendWebhook` means an attempt always settles, it never throws. -/
inductive WebhookResult where
  | delivered (url : String)
  | failed (url : String) (err : String)
  deriving Repr, DecidableEq

/-- One `axios.post(url, payload, { headers, timeout: 5000 })` attempt wrapped
in the try/catch of `WebhookDispatcher.sendWebhook`. -/
def sendWebhook (fails : Bool) (sub : Subscriber) : WebhookResult :=
  if fails then .failed sub.url "network error" else .delivered sub.url

/-- `WebhookDispatcher.dispatch`: POST to every subscriber and wait for all
attempts to settle (`Promise.allSettled`); the i-th flag of `fails` decides
the outcome of the i-th subscriber attempt. -/
def dispatchAux (fails : Nat → Bool) (i : Nat) : List Subscriber → List WebhookResult
  | [] => []
  | sub :: rest => sendWebhook (fails i) sub :: dispatchAux fails (i + 1) rest

/-- Entry point of the dispatcher: all subscriber attempts are collected,
none is skipped because an earlier one failed. -/
def dispatch (subs : List Subscriber) (fails : Nat → Bool) : List WebhookResult :=
  dispatchAux fails 0 subs

/-- Environment of downstream deliveries for one request: the registered
webhook subscribers and the failure behaviour of each external call. -/
structure DownstreamEnv where
  auditFails : Bool
  emailFails : Bool
  reserveNotifyFails : Bool
  subs : List Subscriber
  webhookFails : Nat → Bool

/-- The same environment with every delivery succeeding (subscribers kept). -/
def DownstreamEnv.noFail (env : DownstreamEnv) : DownstreamEnv :=
  { env with auditFails := false, emailFails := false, reserveNotifyFails := false,
             webhookFails := fun _ => false }

/-- A fallible external POST: the flag decides whether the transport throws. -/
def externalPost (fails : Bool) : Except String Unit :=
  if fails then Except.error "ECONNREFUSED" else Except.ok ()

/-- A try/catch whose handler only calls `console.error`: the error never
propagates, it becomes at most a log line. -/
def catchLogged (e : Except String Unit) (label : String) : List String :=
  match e with
  | Except.ok _ => []
  | Except.error msg => [label ++ ": " ++ msg]

/-- `AuditLoggerService.log` (src/services/auditLogger.service.ts): the POST
to the audit service inside try/catch, never thrown past the method. -/
def auditLogCall (fails : Bool) : List String :=
  catchLogged (externalPost fails) "Audit log failed"

/-- `SyncService.notifyBudgetReservation` (src/services/sync.service.ts): the
reservation POST to Finance Main inside try/catch; the comment in the source
says the notification failure must not break the approval flow. -/
def reserveNotifyCall (fails : Bool) : List String :=
  catchLogged (externalPost fails) "Budget reservation notification failed"

/-- The e-mail transport send inside the try/catch of
`NotificationService.sendNotification`; the lifecycle operations observe only
the log line (the notification table is modelled separately). -/
def emailSendCall (fails : Bool) : List String :=
  catchLogged (externalPost fails) "Notification send failed"

/-- The log lines produced by one `webhookDispatcher.dispatch` call. -/
def webhookLogs (env : DownstreamEnv) : List String :=
  (dispatch env.subs env.webhookFails).filterMap (fun res =>
    match res with
    | WebhookResult.delivered _ => none
    | WebhookResult.failed url e => some ("Webhook failed for " ++ url ++ ": " ++ e))

/-- JavaScript `x || dflt` on a nullable number: `null`, `undefined` and `0`
are falsy, so an explicit `0` falls back to the default exactly like an
omitted value. -/
def jsOrRat (x : Option Rat) (dflt : Rat) : Rat :=
  match x with
  | none => dflt
  | some v => if v = 0 then dflt else v

/-- Result of `BudgetCalculator.calculateTotalReserved`. -/
structure BufferCalc where
  bufferAmount : Rat
  totalReserved : Rat
  deriving Repr, DecidableEq

/-- Modelled from the spec: `BudgetCalculator.calculateTotalReserved` lives in
`src/utils/calculator.util.ts`, which is not part of the provided sources;
§4.4 of the spec defines it as `bufferAmount = reservedAmountInput ×
bufferPercentage / 100` and `totalReserved = reservedAmountInput +
bufferAmount`. -/
def calculateTotalReserved (base pct : Rat) : BufferCalc :=
  { bufferAmount := base * pct / 100, totalReserved := base + base * pct / 100 }

/-- The body of an approval request (`BudgetRequestApproval` in
src/types/budgetRequest.types.ts). -/
structure ApprovalData where
  reviewNotes : String
  reservedAmount : Option Rat
  bufferPercentage : Option Rat
  deriving Repr, DecidableEq

/-- The body of a rejection request (`BudgetRequestRejection`). -/
structure RejectionData where
  reviewNotes : String
  deriving Repr, DecidableEq

/-- The Joi `approvalSchema` (src/utils/validation.util.ts): `reviewNotes`
between 10 and 2000 characters and required, `reservedAmount` positive when
present, `bufferPercentage` in [0, 50] when present.  The
`validateApproval` middleware rejects any body violating it before the
controller runs. -/
def approvalDataValid (d : ApprovalData) : Bool :=
  decide (10 ≤ d.reviewNotes.length) && decide (d.reviewNotes.length ≤ 2000)
    && (match d.reservedAmount with | none => true | some v => decide (0 < v))
    && (match d.bufferPercentage with
        | none => true
        | some p => decide (0 ≤ p) && decide (p ≤ 50))

/-- The Joi `rejectionSchema`: `reviewNotes` required, 10 to 2000 chars. -/
def rejectionDataValid (d : RejectionData) : Bool :=
  decide (10 ≤ d.reviewNotes.length) && decide (d.reviewNotes.length ≤ 2000)

/-- `changedByRole` written by the approve and reject services:
`user.role.includes("Admin") ? "ADMIN" : "NON_ADMIN"`. -/
def changedRole (u : UserCtx) : String :=
  if strContains u.role "Admin" then "ADMIN" else "NON_ADMIN"

/-- The history row appended by `service.submit`: fromStatus is hardcoded to
DRAFT in the source. -/
def mkSubmitHistory (id : Nat) (u : UserCtx) : HistoryRow :=
  { budgetRequestId := id, fromStatus := some Status.DRAFT, toStatus := Status.SUBMITTED,
    changedBy := u.id, changedByRole := none, action := "SUBMITTED",
    comments := some "Budget request submitted for review",
    amountBefore := none, amountAfter := none }

/-- The history row appended inside the approve transaction. -/
def mkApproveHistory (id : Nat) (r : BudgetRequest) (d : ApprovalData) (u : UserCtx)
    (bc : BufferCalc) : HistoryRow :=
  { budgetRequestId := id, fromStatus := some r.status, toStatus := Status.APPROVED,
    changedBy := u.id, changedByRole := some (changedRole u), action := "APPROVED",
    comments := some d.reviewNotes,
    amountBefore := some r.amountRequested, amountAfter := some bc.totalReserved }

/-- The history row appended inside the reject transaction. -/
def mkRejectHistory (id : Nat) (r : BudgetRequest) (d : RejectionData) (u : UserCtx) :
    HistoryRow :=
  { budgetRequestId := id, fromStatus := some r.status, toStatus := Status.REJECTED,
    changedBy := u.id, changedByRole := some (changedRole u), action := "REJECTED",
    comments := some d.reviewNotes, amountBefore := none, amountAfter := none }

/-- Field update applied by `prisma.budgetRequest.update` in `service.submit`. -/
def submitUpd (u : UserCtx) (r : BudgetRequest) : BudgetRequest :=
  { r with status := Status.SUBMITTED, updatedBy := some u.id }

/-- Field update applied inside the approve transaction; an absent
`bufferPercentage` is `undefined` in the Prisma data object, which leaves the
stored column untouched. -/
def approveUpd (d : ApprovalData) (u : UserCtx) (bc : BufferCalc) (r : BudgetRequest) :
    BudgetRequest :=
  { r with status := Status.APPROVED,
           reviewedBy := some u.id, reviewNotes := some d.reviewNotes,
           reservedAmount := some bc.totalReserved,
           bufferAmount := some bc.bufferAmount,
           bufferPercentage := (match d.bufferPercentage with
                                | some p => some p
                                | none => r.bufferPercentage),
           isReserved := true,
           approvedBy := some u.id, updatedBy := some u.id }

/-- Field update applied inside the reject transaction. -/
def rejectUpd (d : RejectionData) (u : UserCtx) (r : BudgetRequest) : BudgetRequest :=
  { r with status := Status.REJECTED,
           reviewedBy := some u.id, reviewNotes := some d.reviewNotes,
           rejectedBy := some u.id, updatedBy := some u.id }

/-- Outcome of one service-layer call: the store after the call, the value or
thrown error, and the log lines of its swallowed downstream failures. -/
structure SvcResult where
  store : Store
  outcome : Except String BudgetRequest
  logs : List String
  deriving Repr

/-- `service.submit` (src/services/budgetRequest.service.ts line 466): the
status update, the Redis invalidation, the admin e-mail fan-out and the
history insert are FOUR separate awaited steps with no surrounding
transaction.  Oracle indices: 0 = `prisma.budgetRequest.update`,
1 = `redis.del`, 2 = `prisma.budgetRequestApprovalHistory.create`.  The
e-mail fan-out swallows its own failures and cannot throw. -/
def submitService (ora : Oracle) (env : DownstreamEnv) (s : Store) (id : Nat) (u : UserCtx) :
    SvcResult :=
  match findById s id with
  | none => ⟨s, Except.error "Record to update not found", []⟩
  | some r =>
    if ora 0 = false then ⟨s, Except.error "database error on update", []⟩
    else
      let s1 : Store := { s with requests := updateReq s.requests id (submitUpd u) }
      if ora 1 = false then ⟨s1, Except.error "cache invalidation failed", []⟩
      else
        let logs := emailSendCall env.emailFails
        if ora 2 = false then ⟨s1, Except.error "database error on history insert", logs⟩
        else ⟨{ s1 with history := s1.history ++ [mkSubmitHistory id u] },
              Except.ok (submitUpd u r), logs⟩

/-- `service.approve` (line 498): read the request, compute the reservation
with the JavaScript `||` defaults, then run the status update AND the history
insert inside one `prisma.$transaction` (oracle index 0, all-or-nothing),
then invalidate the cache (index 1), then fire the Finance reservation
notification and the approval e-mail, both of which swallow failures. -/
def approveService (ora : Oracle) (env : DownstreamEnv) (s : Store) (id : Nat)
    (d : ApprovalData) (u : UserCtx) : SvcResult :=
  match findById s id with
  | none => ⟨s, Except.error "Budget request not found", []⟩
  | some r =>
    let bc := calculateTotalReserved (jsOrRat d.reservedAmount r.amountRequested)
      (jsOrRat d.bufferPercentage 0)
    if ora 0 = false then ⟨s, Except.error "transaction failed", []⟩
    else
      let s1 : Store := { s with requests := updateReq s.requests id (approveUpd d u bc),
                                 history := s.history ++ [mkApproveHistory id r d u bc] }
      if ora 1 = false then ⟨s1, Except.error "cache invalidation failed", []⟩
      else ⟨s1, Except.ok (approveUpd d u bc r),
            reserveNotifyCall env.reserveNotifyFails ++ emailSendCall env.emailFails⟩

/-- `service.reject` (line 562): same transactional shape as approve, without
any reservation fields, followed by the rejection e-mail. -/
def rejectService (ora : Oracle) (env : DownstreamEnv) (s : Store) (id : Nat)
    (d : RejectionData) (u : UserCtx) : SvcResult :=
  match findById s id with
  | none => ⟨s, Except.error "Budget request not found", []⟩
  | some r =>
    if ora 0 = false then ⟨s, Except.error "transaction failed", []⟩
    else
      let s1 : Store := { s with requests := updateReq s.requests id (rejectUpd d u),
                                 history := s.history ++ [mkRejectHistory id r d u] }
      if ora 1 = false then ⟨s1, Except.error "cache invalidation failed", []⟩
      else ⟨s1, Except.ok (rejectUpd d u r), emailSendCall env.emailFails⟩

/-- A row of the `cachedDepartmentBudget` mirror table (period bound dates
omitted). -/
structure CachedBudget where
  budgetId : Int
  department : String
  fiscalYear : Nat
  fiscalPeriod : String
  allocatedAmount : Rat
  usedAmount : Rat
  reservedAmount : Rat
  remainingAmount : Rat
  isStale : Bool
  deriving Repr, DecidableEq

/-- The creation body after the dual snake_case/camelCase normalization
(fields the verified claims touch; item allocations are omitted). -/
structure CreateInput where
  department : String
  amountRequested : Rat
  purpose : String
  status : Option Status
  deriving Repr, DecidableEq

/-- The Joi `budgetRequestSchema` (src/utils/validation.util.ts): department
drawn from the fixed enumeration, `amountRequested` positive and at most
10000000, `purpose` 10 to 500 characters, and `status` restricted to the
values DRAFT and SUBMITTED when present.  `validateCreateBudgetRequest`
rejects any body violating it before the controller runs. -/
def validateCreate (inp : CreateInput) : Bool :=
  (inp.department == "finance" || inp.department == "hr"
      || inp.department == "inventory" || inp.department == "operations")
    && decide (0 < inp.amountRequested) && decide (inp.amountRequested ≤ 10000000)
    && decide (10 ≤ inp.purpose.length) && decide (inp.purpose.length ≤ 500)
    && (match inp.status with
        | none => true
        | some Status.DRAFT => true
        | some Status.SUBMITTED => true
        | some _ => false)

/-- The row inserted by `service.create`: shortfall is
`amountRequested - remainingAmount`, stored as itself when positive and as 0
otherwise; the initial status is `data.status || "DRAFT"`; no reservation
field is written. -/
def mkCreatedRow (b : CachedBudget) (s : Store) (inp : CreateInput) (u : UserCtx) :
    BudgetRequest :=
  let shortfall := inp.amountRequested - b.remainingAmount
  { id := s.nextId, department := inp.department, createdBy := u.id,
    amountRequested := inp.amountRequested, purpose := inp.purpose,
    status := inp.status.getD Status.DRAFT,
    reservedAmount := none, bufferAmount := none, bufferPercentage := none,
    isReserved := false,
    budgetShortfall := if shortfall > 0 then shortfall else 0,
    departmentBudgetRemaining := some b.remainingAmount,
    budgetBefore := some b.remainingAmount,
    reviewedBy := none, reviewNotes := none, approvedBy := none, rejectedBy := none,
    updatedBy := none, isDeleted := false }

/-- `service.create` (src/services/budgetRequest.service.ts line 330) after
the department-budget sync resolved `b`: compute the shortfall from the
resolved budget, then insert the request row (and its item allocations)
inside one `prisma.$transaction` (oracle index 0). -/
def createService (ora : Oracle) (b : CachedBudget) (s : Store) (inp : CreateInput)
    (u : UserCtx) : SvcResult :=
  if ora 0 = false then ⟨s, Except.error "transaction failed", []⟩
  else
    let row := mkCreatedRow b s inp u
    ⟨{ s with requests := s.requests ++ [row], nextId := s.nextId + 1 },
      Except.ok row, []⟩

/-- An HTTP-level outcome of a controller call. -/
inductive Resp where
  | ok (r : BudgetRequest)
  | notFound
  | forbidden
  | badRequest (msg : String)
  | validationFailed
  | serverError (msg : String)
  deriving Repr, DecidableEq

/-- Did the controller answer with a success payload? -/
def Resp.isOk : Resp → Bool
  | Resp.ok _ => true
  | _ => false

/-- Outcome of one controller call: the store after the call, the response
sent to the caller, and the swallowed downstream failure logs. -/
structure CtrlResult where
  store : Store
  resp : Resp
  logs : List String
  deriving Repr

/-- `submitBudgetRequest` (src/controllers/budgetRequest.controller.ts line
203): 404 when the request does not exist, 403 unless the caller created it
or is an admin, 400 unless the current status is DRAFT, then the service
call followed by audit log and webhook dispatch. -/
def submitBudgetRequest (ora : Oracle) (env : DownstreamEnv) (s : Store) (id : Nat)
    (u : UserCtx) : CtrlResult :=
  match findById s id with
  | none => ⟨s, Resp.notFound, []⟩
  | some existing =>
    if existing.createdBy ≠ u.id ∧ roleIsAdmin u.role = false then ⟨s, Resp.forbidden, []⟩
    else if existing.status ≠ Status.DRAFT then
      ⟨s, Resp.badRequest "Only draft budget requests can be submitted", []⟩
    else
      match submitService ora env s id u with
      | ⟨s1, Except.ok r1, logs⟩ =>
          ⟨s1, Resp.ok r1, logs ++ auditLogCall env.auditFails ++ webhookLogs env⟩
      | ⟨s1, Except.error e, logs⟩ => ⟨s1, Resp.serverError e, logs⟩

/-- `approveBudgetRequest` (controller line 255): 404 when the request does
not exist, 400 unless the current status is SUBMITTED, then the service call
followed by audit log and webhook dispatch. -/
def approveBudgetRequest (ora : Oracle) (env : DownstreamEnv) (s : Store) (id : Nat)
    (d : ApprovalData) (u : UserCtx) : CtrlResult :=
  match findById s id with
  | none => ⟨s, Resp.notFound, []⟩
  | some existing =>
    if existing.status ≠ Status.SUBMITTED then
      ⟨s, Resp.badRequest "Only submitted budget requests can be approved", []⟩
    else
      match approveService ora env s id d u with
      | ⟨s1, Except.ok r1, logs⟩ =>
          ⟨s1, Resp.ok r1, logs ++ auditLogCall env.auditFails ++ webhookLogs env⟩
      | ⟨s1, Except.error e, logs⟩ => ⟨s1, Resp.serverError e, logs⟩

/-- `rejectBudgetRequest` (controller line 305): 404 when the request does
not exist, 400 unless the current status is SUBMITTED, then the service call
followed by audit log and webhook dispatch. -/
def rejectBudgetRequest (ora : Oracle) (env : DownstreamEnv) (s : Store) (id : Nat)
    (d : RejectionData) (u : UserCtx) : CtrlResult :=
  match findById s id with
  | none => ⟨s, Resp.notFound, []⟩
  | some existing =>
    if existing.status ≠ Status.SUBMITTED then
      ⟨s, Resp.badRequest "Only submitted budget requests can be rejected", []⟩
    else
      match rejectService ora env s id d u with
      | ⟨s1, Except.ok r1, logs⟩ =>
          ⟨s1, Resp.ok r1, logs ++ auditLogCall env.auditFails ++ webhookLogs env⟩
      | ⟨s1, Except.error e, logs⟩ => ⟨s1, Resp.serverError e, logs⟩

/-- The POST /budget-requests route: `validateCreateBudgetRequest` middleware,
then `createBudgetRequest` (controller line 163), which calls the service and
fires audit log and webhook; `b` is the department budget resolved by
`syncDepartmentBudget` at creation time. -/
def createRoute (ora : Oracle) (env : DownstreamEnv) (b : CachedBudget) (s : Store)
    (inp : CreateInput) (u : UserCtx) : CtrlResult :=
  if validateCreate inp = false then ⟨s, Resp.validationFailed, []⟩
  else
    match createService ora b s inp u with
    | ⟨s1, Except.ok r1, logs⟩ =>
        ⟨s1, Resp.ok r1, logs ++ auditLogCall env.auditFails ++ webhookLogs env⟩
    | ⟨s1, Except.error e, logs⟩ => ⟨s1, Resp.serverError e, logs⟩

/-- The approval route: `validateApproval` middleware in front of the
controller. -/
def approveRoute (ora : Oracle) (env : DownstreamEnv) (s : Store) (id : Nat)
    (d : ApprovalData) (u : UserCtx) : CtrlResult :=
  if approvalDataValid d = false then ⟨s, Resp.validationFailed, []⟩
  else approveBudgetRequest ora env s id d u

/-- The rejection route: `validateRejection` middleware in front of the
controller. -/
def rejectRoute (ora : Oracle) (env : DownstreamEnv) (s : Store) (id : Nat)
    (d : RejectionData) (u : UserCtx) : CtrlResult :=
  if rejectionDataValid d = false then ⟨s, Resp.validationFailed, []⟩
  else rejectBudgetRequest ora env s id d u

/-- Sum of the UTF character codes of a string, the
`split("").reduce((acc, char) => acc + char.charCodeAt(0), 0)` hash used by
the mock-budget id. -/
def charSum (s : String) : Nat :=
  s.data.foldl (fun acc c => acc + c.toNat) 0

/-- Department part of the mock-budget id: character-code sum modulo 10. -/
def departmentHash (dept : String) : Nat :=
  charSum dept % 10

/-- JavaScript `parseInt` on the strings reaching it here: the leading digit
characters, or failure when there is none. -/
def parseNatLead (cs : List Char) : Option Nat :=
  let ds := cs.takeWhile Char.isDigit
  if ds.isEmpty then none
  else some (ds.foldl (fun acc c => acc * 10 + (c.toNat - 48)) 0)

/-- Remove the first occurrence of a character (JavaScript
`replace("Q", "")` with a single-character pattern). -/
def removeFirstChar (p : Char) : List Char → List Char
  | [] => []
  | c :: cs => if c = p then cs else c :: removeFirstChar p cs

/-- The regex `^\d{4}-\d{2}$` of the month-format branch. -/
def isMonthFormat (s : String) : Bool :=
  match s.data with
  | [a, b, c, d, dash, e, f] =>
      a.isDigit && b.isDigit && c.isDigit && d.isDigit && dash == '-'
        && e.isDigit && f.isDigit
  | _ => false

/-- Period part of the mock-budget id (src/services/sync.service.ts):
quarters map to their number, half-years to 5 or 6, months to month + 10,
anything else to 90 plus a string hash; each `parseInt(...) || fallback`
keeps the JavaScript falsiness of 0 and NaN. -/
def periodNum (fp : String) : Nat :=
  if fp.data.contains 'Q' then
    (parseNatLead (removeFirstChar 'Q' fp.data)).getD 0
  else if fp.data.contains 'H' then
    (match parseNatLead (removeFirstChar 'H' fp.data) with
     | some n => n + 4
     | none => 5)
  else if isMonthFormat fp then
    ((parseNatLead (fp.data.drop 5)).getD 0) + 10
  else
    90 + charSum fp % 10

/-- The deterministic negative synthetic budget id,
`-(fiscalYear * 100 + periodNum * 10 + departmentHash)`. -/
def mockBudgetId (dept : String) (fy : Nat) (fp : String) : Int :=
  -(Int.ofNat (fy * 100 + periodNum fp * 10 + departmentHash dept))

/-- The synthetic default mirror row created during an outage with no prior
row: deterministic negative `mockBudgetId`, the fixed 10000000 default
allocation, zero used/reserved, marked stale. -/
def synthRow (dept : String) (fy : Nat) (fp : String) : CachedBudget :=
  { budgetId := mockBudgetId dept fy fp, department := dept, fiscalYear := fy,
    fiscalPeriod := fp, allocatedAmount := 10000000, usedAmount := 0,
    reservedAmount := 0, remainingAmount := 10000000, isStale := true }

/-- The budget snapshot returned by the Finance API on a successful call. -/
structure FinanceSnap where
  id : Int
  allocatedAmount : Rat
  usedAmount : Rat
  reservedAmount : Rat
  remainingAmount : Rat
  deriving Repr, DecidableEq

/-- State of the sync service: the persisted `cachedDepartmentBudget` mirror
table (unique on the (department, fiscalYear, fiscalPeriod) triple) and the
short-TTL Redis cache, which `cacheService` keys by department and
fiscalPeriod only. -/
structure SyncState where
  mirror : List CachedBudget
  shortCache : List (String × String × CachedBudget)
  deriving Repr, DecidableEq

/-- Does a mirror row carry the given unique key? -/
def mirrorKeyMatches (b : CachedBudget) (dept : String) (fy : Nat) (fp : String) : Bool :=
  b.department == dept && b.fiscalYear == fy && b.fiscalPeriod == fp

/-- `prisma.cachedDepartmentBudget.findUnique` on the triple key. -/
def mirrorFind (m : List CachedBudget) (dept : String) (fy : Nat) (fp : String) :
    Option CachedBudget :=
  m.find? (fun b => mirrorKeyMatches b dept fy fp)

/-- `prisma.cachedDepartmentBudget.upsert` on the triple key, returning the
new table and the resulting row. -/
def mirrorUpsert (m : List CachedBudget) (dept : String) (fy : Nat) (fp : String)
    (createRow : CachedBudget) (updRow : CachedBudget → CachedBudget) :
    List CachedBudget × CachedBudget :=
  match mirrorFind m dept fy fp with
  | some old =>
      (m.map (fun b => if mirrorKeyMatches b dept fy fp then updRow b else b), updRow old)
  | none => (m ++ [createRow], createRow)

/-- `cacheService.getDepartmentBudget`: Redis key `budget:dept:period`. -/
def shortCacheFind (cache : List (String × String × CachedBudget)) (dept fp : String) :
    Option CachedBudget :=
  (cache.find? (fun e => e.1 == dept && e.2.1 == fp)).map (fun e => e.2.2)

/-- `SyncService.syncDepartmentBudget` (src/services/sync.service.ts line
161).  `fin` is the outcome of the Finance API call: `some` snapshot on
success, `none` when the call fails (outage, timeout, non-2xx).
1. A short-TTL cache hit is returned unchanged.
2. On API success the snapshot is upserted into the mirror with staleness
   cleared, cached, and returned.
3. On API failure an existing mirror row is marked stale (by its unique key)
   and returned as read.
4. Otherwise a synthetic default row is upserted: the deterministic negative
   `mockBudgetId`, a fixed 10000000 allocation, zero used/reserved and
   `isStale = true`; the short-TTL cache is not populated on this path. -/
def syncDepartmentBudget (fin : Option FinanceSnap) (st : SyncState) (dept : String)
    (fy : Nat) (fp : String) : SyncState × CachedBudget :=
  match shortCacheFind st.shortCache dept fp with
  | some cached => (st, cached)
  | none =>
    match fin with
    | some f =>
        let created : CachedBudget :=
          { budgetId := f.id, department := dept, fiscalYear := fy, fiscalPeriod := fp,
            allocatedAmount := f.allocatedAmount, usedAmount := f.usedAmount,
            reservedAmount := f.reservedAmount, remainingAmount := f.remainingAmount,
            isStale := false }
        let upd := fun (b : CachedBudget) =>
          { b with allocatedAmount := f.allocatedAmount, usedAmount := f.usedAmount,
                   reservedAmount := f.reservedAmount, remainingAmount := f.remainingAmount,
                   isStale := false }
        let res := mirrorUpsert st.mirror dept fy fp created upd
        ({ mirror := res.1, shortCache := st.shortCache ++ [(dept, fp, res.2)] }, res.2)
    | none =>
      match mirrorFind st.mirror dept fy fp with
      | some staleData =>
          ({ st with mirror := st.mirror.map (fun b =>
              if mirrorKeyMatches b dept fy fp then { b with isStale := true } else b) },
            staleData)
      | none =>
          let res := mirrorUpsert st.mirror dept fy fp (synthRow dept fy fp)
            (fun b => { b with isStale := true })
          ({ st with mirror := res.1 }, res.2)

/-- A row of the `budgetRequestNotification` table (the delivery-tracking
columns the claims touch). -/
structure NotifRecord where
  id : Nat
  budgetRequestId : Nat
  recipientUserId : String
  recipientEmail : String
  deliveryStatus : String
  deliveryError : Option String
  deriving Repr, DecidableEq

/-- The notification table and its autoincrement counter. -/
structure NotifState where
  records : List NotifRecord
  nextId : Nat
  deriving Repr, DecidableEq

/-- Recipient data passed to `sendNotification`. -/
structure NotifData where
  recipientUserId : String
  recipientEmail : String
  deriving Repr, DecidableEq

/-- `NotificationService.sendNotification` (src/services/notification.service.ts
line 160): create a `pending` record; when SMTP is configured and the
recipient has an e-mail address, attempt the transport send; on success mark
that one record `sent`; on a send failure the catch block runs
`updateMany({ where: { budgetRequestId, deliveryStatus: "pending" },
data: { deliveryStatus: "failed", ... } })`, which marks EVERY still-pending
record of the same budget request as failed, not only the record created by
this call. -/
def sendNotification (smtpConfigured sendFails : Bool) (st : NotifState) (brId : Nat)
    (d : NotifData) : NotifState :=
  let newRec : NotifRecord :=
    { id := st.nextId, budgetRequestId := brId, recipientUserId := d.recipientUserId,
      recipientEmail := d.recipientEmail, deliveryStatus := "pending",
      deliveryError := none }
  let st1 : NotifState := { records := st.records ++ [newRec], nextId := st.nextId + 1 }
  if smtpConfigured && d.recipientEmail != "" then
    if sendFails then
      { st1 with records := st1.records.map (fun rec =>
          if rec.budgetRequestId = brId ∧ rec.deliveryStatus = "pending" then
            { rec with deliveryStatus := "failed", deliveryError := some "transport error" }
          else rec) }
    else
      { st1 with records := st1.records.map (fun rec =>
          if rec.id = newRec.id then { rec with deliveryStatus := "sent" } else rec) }
  else st1

/-- `NotificationService.notifyAdminsNewRequest`: one `sendNotification` per
department admin; the i-th flag decides whether the i-th transport send
fails. -/
def notifyAdmins (smtp : Bool) (fails : Nat → Bool) (st : NotifState) (brId : Nat) :
    Nat → List NotifData → NotifState
  | _, [] => st
  | i, d :: rest => notifyAdmins smtp fails (sendNotification smtp (fails i) st brId d) brId (i + 1) rest

/-- A draft request used by the concrete test stores. -/
def baseReq : BudgetRequest :=
  { id := 1, department := "operations", createdBy := "u1", amountRequested := 10000,
    purpose := "Replacement of bus tires", status := Status.DRAFT,
    reservedAmount := none, bufferAmount := none, bufferPercentage := none,
    isReserved := false, budgetShortfall := 2000,
    departmentBudgetRemaining := some 8000, budgetBefore := some 8000,
    reviewedBy := none, reviewNotes := none, approvedBy := none, rejectedBy := none,
    updatedBy := none, isDeleted := false }

/-- Oracle on which every primitive write succeeds. -/
def oraAll : Oracle := fun _ => true

/-- Downstream environment without subscribers or failures. -/
def envQuiet : DownstreamEnv :=
  { auditFails := false, emailFails := false, reserveNotifyFails := false,
    subs := [], webhookFails := fun _ => false }

/-- The creator of `baseReq`. -/
def uStaff : UserCtx := ⟨"u1", "staff", "Operations Staff", "operations"⟩

/-- A Finance admin reviewer. -/
def uFin : UserCtx := ⟨"f1", "finadmin", "Finance Admin", "finance"⟩

example :
    (submitBudgetRequest oraAll envQuiet ⟨[baseReq], [], 2⟩ 1 uStaff).resp.isOk = true := by
  decide

/-- Oracle on which the first two primitive writes succeed and the third
fails: in `service.submit` this is the run where the status update and the
cache invalidation succeed and the approval-history insert throws. -/
def c1Oracle : Oracle := fun n => decide (n < 2)

/-- Claim C1: the claim states that submit, approve and reject apply the
status update and the history insert atomically, a state with the status
changed but no history row being unreachable.  `service.submit` however runs
the two writes as separate non-transactional statements: on a concrete DRAFT
request, the run in which the history insert fails leaves the request
SUBMITTED with an empty history table, so the partial state IS reachable and
the submit operation contradicts the atomicity the spec demands (approve and
reject do wrap both writes in one transaction). -/
theorem submit_partial_write_at_failing_input :
    (submitBudgetRequest c1Oracle envQuiet ⟨[baseReq], [], 2⟩ 1 uStaff).store.requests.map
        (fun r => r.status) = [Status.SUBMITTED]
      ∧ (submitBudgetRequest c1Oracle envQuiet ⟨[baseReq], [], 2⟩ 1 uStaff).store.history = []
      ∧ (submitBudgetRequest c1Oracle envQuiet ⟨[baseReq], [], 2⟩ 1 uStaff).resp.isOk
          = false := by
  decide

/-- An approval body used by concrete instantiations. -/
def dEx : ApprovalData := ⟨"fine, approving this request", some 1000, some 10⟩

/-- A rejection body used by concrete instantiations. -/
def rjEx : RejectionData := ⟨"not enough budget left"⟩

/-- A request already in the terminal APPROVED status. -/
def c2Req : BudgetRequest :=
  { baseReq with status := Status.APPROVED, reservedAmount := some 11000,
                 isReserved := true }

/-- Store holding only `c2Req`. -/
def c2Store : Store := ⟨[c2Req], [], 2⟩

/-- A soft-deleted request sitting in SUBMITTED status. -/
def c3Req : BudgetRequest :=
  { baseReq with status := Status.SUBMITTED, isDeleted := true }

/-- Store holding only the soft-deleted `c3Req`. -/
def c3Store : Store := ⟨[c3Req], [], 2⟩

/-- Counterexample to C3 as stated: `service.findById` performs no
`isDeleted` filtering, so the soft-deleted record is returned rather than
excluded, and `approveBudgetRequest` on its id does not fail with NotFound —
it succeeds and mutates the store. -/
theorem soft_delete_claim_counterexample :
    (findById c3Store 1).isSome = true
      ∧ (approveBudgetRequest oraAll envQuiet c3Store 1 dEx uFin).resp.isOk = true
      ∧ (approveBudgetRequest oraAll envQuiet c3Store 1 dEx uFin).store ≠ c3Store := by
  refine ⟨by decide, ?_, ?_⟩
  · norm_num [approveBudgetRequest, approveService, findById, List.find?, c3Store, c3Req,
      baseReq, oraAll, envQuiet, Resp.isOk]
  · intro h
    have hh := congrArg (fun st => st.history.length) h
    norm_num [approveBudgetRequest, approveService, findById, List.find?, c3Store, c3Req,
      baseReq, oraAll, envQuiet] at hh

/-- Claim C3 (amended): soft-deleted requests are excluded from list results
(the list filter always carries `isDeleted: false`), but not from
`service.findById`; the transition controllers are gated only by existence,
ownership and status — not by `isDeleted` — so approve on a soft-deleted
SUBMITTED request succeeds and mutates it instead of failing with NotFound. -/
theorem soft_delete_amended (s : Store) (status? : Option Status)
    (department? : Option String) (id : Nat) (d : ApprovalData) (u : UserCtx)
    (r : BudgetRequest) :
    (∀ x ∈ listBudgetRequests s status? department?, x.isDeleted = false)
    ∧ (findById s id = some r → r.isDeleted = true → r.status = Status.SUBMITTED →
        (approveBudgetRequest oraAll envQuiet s id d u).resp.isOk = true) := by
  constructor
  · intro x hx
    simp only [listBudgetRequests, List.mem_filter] at hx
    have := hx.2
    simp only [Bool.and_eq_true, decide_eq_true_eq] at this
    exact this.1.1
  · intro hfind hdel hst
    have hne : ¬ r.status ≠ Status.SUBMITTED := not_not.mpr hst
    simp only [approveBudgetRequest, hfind, if_neg hne, approveService, oraAll]
    simp [Resp.isOk]

/-- Witness for the amended C3 on the concrete soft-deleted store. -/
theorem soft_delete_amended_witness :
    (∀ x ∈ listBudgetRequests c3Store none none, x.isDeleted = false)
    ∧ (approveBudgetRequest oraAll envQuiet c3Store 1 dEx uFin).resp.isOk = true :=
  ⟨(soft_delete_amended c3Store none none 1 dEx uFin c3Req).1,
   (soft_delete_amended c3Store none none 1 dEx uFin c3Req).2 (by decide) (by decide)
     (by decide)⟩

/-- A SUBMITTED request asking for 50000. -/
def c5Req : BudgetRequest :=
  { baseReq with amountRequested := 50000, status := Status.SUBMITTED }

/-- Store holding only `c5Req`. -/
def c5Store : Store := ⟨[c5Req], [], 2⟩

/-- The approval body of the worked example: reservedAmount 50000, buffer 5%. -/
def d5 : ApprovalData := ⟨"looks good, approved", some 50000, some 5⟩

/-- Claim C5: with the reservation base defaulting to the original
`amountRequested` and the buffer percentage defaulting to 0 (the JavaScript
`||` defaults of the source), every successful approval persists
`bufferAmount = base × pct / 100` and `reservedAmount = base + bufferAmount`;
in particular approving a 50000 request with reservedAmount 50000 and
bufferPercentage 5 stores bufferAmount 2500 and reservedAmount 52500. -/
theorem approve_buffer_computation (ora : Oracle) (env : DownstreamEnv) (s : Store)
    (id : Nat) (d : ApprovalData) (u : UserCtx) (r r1 : BudgetRequest)
    (hfind : findById s id = some r)
    (hok : (approveBudgetRequest ora env s id d u).resp = Resp.ok r1) :
    r1.bufferAmount =
        some (jsOrRat d.reservedAmount r.amountRequested
          * jsOrRat d.bufferPercentage 0 / 100)
    ∧ r1.reservedAmount =
        some (jsOrRat d.reservedAmount r.amountRequested
          + jsOrRat d.reservedAmount r.amountRequested * jsOrRat d.bufferPercentage 0 / 100)
    ∧ ((approveBudgetRequest oraAll envQuiet c5Store 1 d5 uFin).store.requests.map
        (fun x => (x.bufferAmount, x.reservedAmount))) = [(some 2500, some 52500)] := by
  by_cases hst : r.status ≠ Status.SUBMITTED
  · simp only [approveBudgetRequest, hfind, if_pos hst] at hok
    exact absurd hok (by simp)
  · simp only [approveBudgetRequest, hfind, if_neg hst, approveService] at hok
    by_cases h0 : ora 0 = false
    · simp only [if_pos h0] at hok
      simp at hok
    · simp only [if_neg h0] at hok
      by_cases h1 : ora 1 = false
      · simp only [if_pos h1] at hok
        simp at hok
      · simp only [if_neg h1] at hok
        simp only [Resp.ok.injEq] at hok
        subst hok
        refine ⟨rfl, rfl, ?_⟩
        norm_num [approveBudgetRequest, approveService, findById, List.find?, updateReq,
          jsOrRat, calculateTotalReserved, approveUpd, c5Store, c5Req, baseReq, d5,
          oraAll, envQuiet, uFin]

/-- The row produced by approving `c5Req` with `d5`. -/
def c5Approved : BudgetRequest :=
  approveUpd d5 uFin
    (calculateTotalReserved (jsOrRat d5.reservedAmount c5Req.amountRequested)
      (jsOrRat d5.bufferPercentage 0)) c5Req

/-- Witness for C5 on the concrete 50000-request approval. -/
theorem approve_buffer_computation_witness :
    c5Approved.bufferAmount =
        some (jsOrRat d5.reservedAmount c5Req.amountRequested
          * jsOrRat d5.bufferPercentage 0 / 100)
    ∧ c5Approved.reservedAmount =
        some (jsOrRat d5.reservedAmount c5Req.amountRequested
          + jsOrRat d5.reservedAmount c5Req.amountRequested
            * jsOrRat d5.bufferPercentage 0 / 100)
    ∧ ((approveBudgetRequest oraAll envQuiet c5Store 1 d5 uFin).store.requests.map
        (fun x => (x.bufferAmount, x.reservedAmount))) = [(some 2500, some 52500)] :=
  approve_buffer_computation oraAll envQuiet c5Store 1 d5 uFin c5Req c5Approved rfl rfl

/-- Claim C6: every successfully created request persists
`budgetShortfall = max(0, amountRequested − remainingAmount)` of the
department budget resolved at creation time, hence a non-negative value. -/
theorem create_budget_shortfall (ora : Oracle) (env : DownstreamEnv) (b : CachedBudget)
    (s : Store) (inp : CreateInput) (u : UserCtx) (r1 : BudgetRequest)
    (hok : (createRoute ora env b s inp u).resp = Resp.ok r1) :
    r1.budgetShortfall = max 0 (inp.amountRequested - b.remainingAmount)
    ∧ 0 ≤ r1.budgetShortfall := by
  by_cases hv : validateCreate inp = false
  · simp only [createRoute, if_pos hv] at hok
    exact absurd hok (by simp)
  · simp only [createRoute, if_neg hv, createService] at hok
    by_cases h0 : ora 0 = false
    · simp only [if_pos h0] at hok
      simp at hok
    · simp only [if_neg h0] at hok
      simp only [Resp.ok.injEq] at hok
      subst hok
      constructor
      · simp only [mkCreatedRow]
        rcases lt_or_le 0 (inp.amountRequested - b.remainingAmount) with h | h
        · rw [if_pos h, max_eq_right h.le]
        · rw [if_neg (not_lt.mpr h), max_eq_left h]
      · simp only [mkCreatedRow]
        split
        · rename_i h
          exact h.le
        · exact le_refl 0

/-- A creation body passing the Joi schema. -/
def inpEx : CreateInput :=
  ⟨"operations", 10000, "Replacement of bus tires", none⟩

/-- A mirror row with 8000 remaining for the operations department. -/
def bEx : CachedBudget :=
  { budgetId := 77, department := "operations", fiscalYear := 2025, fiscalPeriod := "Q1",
    allocatedAmount := 20000, usedAmount := 10000, reservedAmount := 2000,
    remainingAmount := 8000, isStale := false }

/-- The row created from `inpEx` against `bEx` on the empty store. -/
def c6Row : BudgetRequest := mkCreatedRow bEx ⟨[], [], 1⟩ inpEx uStaff

/-- Witness for C6: creating a 10000 request against 8000 remaining persists
a shortfall of max(0, 2000). -/
theorem create_budget_shortfall_witness :
    c6Row.budgetShortfall = max 0 (inpEx.amountRequested - bEx.remainingAmount)
    ∧ 0 ≤ c6Row.budgetShortfall :=
  create_budget_shortfall oraAll envQuiet bEx ⟨[], [], 1⟩ inpEx uStaff c6Row rfl

/-- Claim C7: during a sustained Finance outage (every API call fails) with
no prior mirror row and no short-TTL cache entry for the key, the first
`syncDepartmentBudget` call yields the synthetic record with the
deterministic negative `mockBudgetId`, the fixed 10000000 default allocation
and `isStale = true`, and a second call on the resulting state yields a
record with the SAME synthetic id (and the same allocation and staleness),
not a different negative id. -/
theorem sync_synthetic_id_idempotent (st : SyncState) (dept : String) (fy : Nat)
    (fp : String) (hy : 1 ≤ fy)
    (hmirror : mirrorFind st.mirror dept fy fp = none)
    (hcache : shortCacheFind st.shortCache dept fp = none) :
    ((syncDepartmentBudget none st dept fy fp).2.budgetId = mockBudgetId dept fy fp)
    ∧ (syncDepartmentBudget none st dept fy fp).2.budgetId < 0
    ∧ (syncDepartmentBudget none st dept fy fp).2.allocatedAmount = 10000000
    ∧ (syncDepartmentBudget none st dept fy fp).2.isStale = true
    ∧ ((syncDepartmentBudget none (syncDepartmentBudget none st dept fy fp).1
          dept fy fp).2.budgetId = mockBudgetId dept fy fp)
    ∧ ((syncDepartmentBudget none (syncDepartmentBudget none st dept fy fp).1
          dept fy fp).2.allocatedAmount = 10000000)
    ∧ ((syncDepartmentBudget none (syncDepartmentBudget none st dept fy fp).1
          dept fy fp).2.isStale = true) := by
  have hkey : mirrorKeyMatches (synthRow dept fy fp) dept fy fp = true := by
    simp [mirrorKeyMatches, synthRow]
  have hstep : syncDepartmentBudget none st dept fy fp
      = ({ st with mirror := st.mirror ++ [synthRow dept fy fp] }, synthRow dept fy fp) := by
    simp only [syncDepartmentBudget, hcache, hmirror, mirrorUpsert]
  have hneg : mockBudgetId dept fy fp < 0 := by
    have hpos : 0 < fy * 100 + periodNum fp * 10 + departmentHash dept := by
      have := Nat.mul_le_mul_right 100 hy
      omega
    simp only [mockBudgetId, Int.ofNat_eq_coe]
    omega
  have hfind2 : mirrorFind (st.mirror ++ [synthRow dept fy fp]) dept fy fp
      = some (synthRow dept fy fp) := by
    unfold mirrorFind at hmirror ⊢
    rw [List.find?_append, hmirror]
    simp [List.find?, hkey]
  have hstep2 : (syncDepartmentBudget none
      ({ st with mirror := st.mirror ++ [synthRow dept fy fp] }, synthRow dept fy fp).1
      dept fy fp).2 = synthRow dept fy fp := by
    simp only [syncDepartmentBudget, hcache, hfind2]
  rw [hstep]
  refine ⟨rfl, ?_, rfl, rfl, ?_, ?_, ?_⟩
  · exact hneg
  · rw [hstep2]
    rfl
  · rw [hstep2]
    rfl
  · rw [hstep2]
    rfl

/-- Witness for C7: the empty sync state, department operations, fiscal year
2025, period Q1; both outage calls return budget id -202512. -/
theorem sync_synthetic_id_idempotent_witness :
    ((syncDepartmentBudget none ⟨[], []⟩ "operations" 2025 "Q1").2.budgetId
        = mockBudgetId "operations" 2025 "Q1")
    ∧ (syncDepartmentBudget none ⟨[], []⟩ "operations" 2025 "Q1").2.budgetId < 0
    ∧ (syncDepartmentBudget none ⟨[], []⟩ "operations" 2025 "Q1").2.allocatedAmount = 10000000
    ∧ (syncDepartmentBudget none ⟨[], []⟩ "operations" 2025 "Q1").2.isStale = true
    ∧ ((syncDepartmentBudget none (syncDepartmentBudget none ⟨[], []⟩ "operations" 2025 "Q1").1
          "operations" 2025 "Q1").2.budgetId = mockBudgetId "operations" 2025 "Q1")
    ∧ ((syncDepartmentBudget none (syncDepartmentBudget none ⟨[], []⟩ "operations" 2025 "Q1").1
          "operations" 2025 "Q1").2.allocatedAmount = 10000000)
    ∧ ((syncDepartmentBudget none (syncDepartmentBudget none ⟨[], []⟩ "operations" 2025 "Q1").1
          "operations" 2025 "Q1").2.isStale = true) :=
  sync_synthetic_id_idempotent ⟨[], []⟩ "operations" 2025 "Q1" (by decide) (by rfl) (by rfl)

/-- The store and the thrown-or-returned outcome of `service.submit` do not
depend on the downstream environment (only its swallowed-failure logs do). -/
theorem submitService_env_agnostic (ora : Oracle) (env env2 : DownstreamEnv) (s : Store)
    (id : Nat) (u : UserCtx) :
    (submitService ora env s id u).store = (submitService ora env2 s id u).store
    ∧ (submitService ora env s id u).outcome = (submitService ora env2 s id u).outcome := by
  unfold submitService
  cases hfind : findById s id
  · exact ⟨rfl, rfl⟩
  · by_cases h0 : ora 0 = false <;> by_cases h1 : ora 1 = false <;>
      by_cases h2 : ora 2 = false <;> simp [h0, h1, h2]

/-- The store and outcome of `service.approve` do not depend on the
downstream environment. -/
theorem approveService_env_agnostic (ora : Oracle) (env env2 : DownstreamEnv) (s : Store)
    (id : Nat) (d : ApprovalData) (u : UserCtx) :
    (approveService ora env s id d u).store = (approveService ora env2 s id d u).store
    ∧ (approveService ora env s id d u).outcome = (approveService ora env2 s id d u).outcome := by
  unfold approveService
  cases hfind : findById s id
  · exact ⟨rfl, rfl⟩
  · by_cases h0 : ora 0 = false <;> by_cases h1 : ora 1 = false <;> simp [h0, h1]

/-- The store and outcome of `service.reject` do not depend on the
downstream environment. -/
theorem rejectService_env_agnostic (ora : Oracle) (env env2 : DownstreamEnv) (s : Store)
    (id : Nat) (d : RejectionData) (u : UserCtx) :
    (rejectService ora env s id d u).store = (rejectService ora env2 s id d u).store
    ∧ (rejectService ora env s id d u).outcome = (rejectService ora env2 s id d u).outcome := by
  unfold rejectService
  cases hfind : findById s id
  · exact ⟨rfl, rfl⟩
  · by_cases h0 : ora 0 = false <;> by_cases h1 : ora 1 = false <;> simp [h0, h1]

/-- Lift of the service env-agnosticity through the submit controller. -/
theorem submit_env_invariant (ora : Oracle) (env : DownstreamEnv) (s : Store) (id : Nat)
    (u : UserCtx) :
    (submitBudgetRequest ora env s id u).store
        = (submitBudgetRequest ora env.noFail s id u).store
    ∧ (submitBudgetRequest ora env s id u).resp
        = (submitBudgetRequest ora env.noFail s id u).resp := by
  unfold submitBudgetRequest
  cases hfind : findById s id
  · exact ⟨rfl, rfl⟩
  · rename_i r
    by_cases hown : r.createdBy ≠ u.id ∧ roleIsAdmin u.role = false
    · simp [hown]
    · by_cases hst : r.status ≠ Status.DRAFT
      · simp [hown, hst]
      · simp only [if_neg hown, if_neg hst]
        obtain ⟨hs, ho⟩ := submitService_env_agnostic ora env env.noFail s id u
        rcases h1 : submitService ora env s id u with ⟨s1, o1, l1⟩
        rcases h2 : submitService ora env.noFail s id u with ⟨s2, o2, l2⟩
        rw [h1, h2] at hs ho
        simp only at hs ho
        subst hs
        subst ho
        cases o1
        · exact ⟨rfl, rfl⟩
        · exact ⟨rfl, rfl⟩

/-- Lift of the service env-agnosticity through the approve controller. -/
theorem approve_env_invariant (ora : Oracle) (env : DownstreamEnv) (s : Store) (id : Nat)
    (d : ApprovalData) (u : UserCtx) :
    (approveBudgetRequest ora env s id d u).store
        = (approveBudgetRequest ora env.noFail s id d u).store
    ∧ (approveBudgetRequest ora env s id d u).resp
        = (approveBudgetRequest ora env.noFail s id d u).resp := by
  unfold approveBudgetRequest
  cases hfind : findById s id
  · exact ⟨rfl, rfl⟩
  · rename_i r
    by_cases hst : r.status ≠ Status.SUBMITTED
    · simp [hst]
    · simp only [if_neg hst]
      obtain ⟨hs, ho⟩ := approveService_env_agnostic ora env env.noFail s id d u
      rcases h1 : approveService ora env s id d u with ⟨s1, o1, l1⟩
      rcases h2 : approveService ora env.noFail s id d u with ⟨s2, o2, l2⟩
      rw [h1, h2] at hs ho
      simp only at hs ho
      subst hs
      subst ho
      cases o1
      · exact ⟨rfl, rfl⟩
      · exact ⟨rfl, rfl⟩

/-- Lift of the service env-agnosticity through the reject controller. -/
theorem reject_env_invariant (ora : Oracle) (env : DownstreamEnv) (s : Store) (id : Nat)
    (d : RejectionData) (u : UserCtx) :
    (rejectBudgetRequest ora env s id d u).store
        = (rejectBudgetRequest ora env.noFail s id d u).store
    ∧ (rejectBudgetRequest ora env s id d u).resp
        = (rejectBudgetRequest ora env.noFail s id d u).resp := by
  unfold rejectBudgetRequest
  cases hfind : findById s id
  · exact ⟨rfl, rfl⟩
  · rename_i r
    by_cases hst : r.status ≠ Status.SUBMITTED
    · simp [hst]
    · simp only [if_neg hst]
      obtain ⟨hs, ho⟩ := rejectService_env_agnostic ora env env.noFail s id d u
      rcases h1 : rejectService ora env s id d u with ⟨s1, o1, l1⟩
      rcases h2 : rejectService ora env.noFail s id d u with ⟨s2, o2, l2⟩
      rw [h1, h2] at hs ho
      simp only at hs ho
      subst hs
      subst ho
      cases o1
      · exact ⟨rfl, rfl⟩
      · exact ⟨rfl, rfl⟩

/-- The create route does not hand the environment to its service at all. -/
theorem create_env_invariant (ora : Oracle) (env : DownstreamEnv) (b : CachedBudget)
    (s : Store) (inp : CreateInput) (u : UserCtx) :
    (createRoute ora env b s inp u).store = (createRoute ora env.noFail b s inp u).store
    ∧ (createRoute ora env b s inp u).resp = (createRoute ora env.noFail b s inp u).resp := by
  unfold createRoute createService
  by_cases hv : validateCreate inp = false
  · simp only [if_pos hv]
    exact ⟨trivial, trivial⟩
  · simp only [if_neg hv]
    by_cases h0 : ora 0 = false
    · simp only [if_pos h0]
      exact ⟨trivial, trivial⟩
    · simp only [if_neg h0]
      exact ⟨trivial, trivial⟩

/-- Position-wise description of the settled dispatcher output. -/
theorem dispatchAux_get? (fails : Nat → Bool) (i k : Nat) (l : List Subscriber) :
    (dispatchAux fails i l).get? k
      = (l.get? k).map (fun sub => sendWebhook (fails (i + k)) sub) := by
  induction l generalizing i k with
  | nil => cases k <;> rfl
  | cons sub rest ih =>
    cases k with
    | zero => rfl
    | succ k =>
        have := ih (i + 1) k
        rw [show i + 1 + k = i + (k + 1) by omega] at this
        simpa [dispatchAux] using this

/-- The dispatcher settles exactly one result per subscriber. -/
theorem dispatchAux_length (fails : Nat → Bool) (i : Nat) (l : List Subscriber) :
    (dispatchAux fails i l).length = l.length := by
  induction l generalizing i with
  | nil => rfl
  | cons sub rest ih => simp [dispatchAux, ih]

/-- Claim C8: no downstream delivery failure (audit POST, any webhook POST,
e-mail send, or Finance reservation POST) changes the store or the response
of any lifecycle operation — the outcome with an arbitrary failure
environment equals the outcome with the same subscribers and no failures —
and the webhook fan-out settles one result per subscriber with the i-th
outcome depending only on the i-th failure flag, so one subscriber failing
cannot suppress the attempts to the others. -/
theorem downstream_failures_isolated (ora : Oracle) (env : DownstreamEnv) (b : CachedBudget)
    (s : Store) (inp : CreateInput) (id : Nat) (d : ApprovalData) (rj : RejectionData)
    (u : UserCtx) (subs : List Subscriber) (fails : Nat → Bool) (k : Nat) :
    ((createRoute ora env b s inp u).store = (createRoute ora env.noFail b s inp u).store
      ∧ (createRoute ora env b s inp u).resp = (createRoute ora env.noFail b s inp u).resp)
    ∧ ((submitBudgetRequest ora env s id u).store
          = (submitBudgetRequest ora env.noFail s id u).store
      ∧ (submitBudgetRequest ora env s id u).resp
          = (submitBudgetRequest ora env.noFail s id u).resp)
    ∧ ((approveBudgetRequest ora env s id d u).store
          = (approveBudgetRequest ora env.noFail s id d u).store
      ∧ (approveBudgetRequest ora env s id d u).resp
          = (approveBudgetRequest ora env.noFail s id d u).resp)
    ∧ ((rejectBudgetRequest ora env s id rj u).store
          = (rejectBudgetRequest ora env.noFail s id rj u).store
      ∧ (rejectBudgetRequest ora env s id rj u).resp
          = (rejectBudgetRequest ora env.noFail s id rj u).resp)
    ∧ (dispatch subs fails).length = subs.length
    ∧ (dispatch subs fails).get? k = (subs.get? k).map (fun sub => sendWebhook (fails k) sub) :=
  ⟨create_env_invariant ora env b s inp u,
   submit_env_invariant ora env s id u,
   approve_env_invariant ora env s id d u,
   reject_env_invariant ora env s id rj u,
   dispatchAux_length fails 0 subs,
   by simpa using dispatchAux_get? fails 0 k subs⟩

/-- Claim C9: in the approve operation an explicit reservedAmount of 0 is
treated exactly like an omitted one — the JavaScript `||` makes the
reservation base fall back to the original `amountRequested` — and under the
approval-schema validation in front of the controller (bufferPercentage
nonnegative, reservedAmount positive when present), no request with
`amountRequested > 0` can end up approved with a final reserved amount of
zero. -/
theorem approve_zero_base_fallback (ora : Oracle) (env : DownstreamEnv) (s : Store)
    (id : Nat) (d : ApprovalData) (u : UserCtx) (r r1 : BudgetRequest)
    (hvalid : approvalDataValid d = true)
    (hfind : findById s id = some r)
    (hamt : 0 < r.amountRequested)
    (hok : (approveRoute ora env s id d u).resp = Resp.ok r1) :
    jsOrRat (some 0) r.amountRequested = jsOrRat none r.amountRequested
    ∧ ∃ t, r1.reservedAmount = some t ∧ 0 < t := by
  constructor
  · simp [jsOrRat]
  · have hbase : 0 < jsOrRat d.reservedAmount r.amountRequested := by
      cases hres : d.reservedAmount with
      | none => simpa [jsOrRat] using hamt
      | some v =>
          have hv : 0 < v := by
            simp only [approvalDataValid, hres, Bool.and_eq_true, decide_eq_true_eq]
              at hvalid
            exact hvalid.1.2
          simp only [jsOrRat, if_neg hv.ne']
          exact hv
    have hpct : 0 ≤ jsOrRat d.bufferPercentage 0 := by
      cases hp : d.bufferPercentage with
      | none => simp [jsOrRat]
      | some p =>
          have hple : 0 ≤ p := by
            simp only [approvalDataValid, hp, Bool.and_eq_true, decide_eq_true_eq]
              at hvalid
            exact hvalid.2.1
          by_cases hz : p = 0
          · simp [jsOrRat, hz]
          · simp only [jsOrRat, if_neg hz]
            exact hple
    have hv' : ¬ approvalDataValid d = false := by simp [hvalid]
    simp only [approveRoute, if_neg hv'] at hok
    by_cases hst : r.status ≠ Status.SUBMITTED
    · simp only [approveBudgetRequest, hfind, if_pos hst] at hok
      exact absurd hok (by simp)
    · simp only [approveBudgetRequest, hfind, if_neg hst, approveService] at hok
      by_cases h0 : ora 0 = false
      · simp only [if_pos h0] at hok
        simp at hok
      · simp only [if_neg h0] at hok
        by_cases h1 : ora 1 = false
        · simp only [if_pos h1] at hok
          simp at hok
        · simp only [if_neg h1] at hok
          simp only [Resp.ok.injEq] at hok
          subst hok
          refine ⟨_, rfl, ?_⟩
          have hquot : 0 ≤ jsOrRat d.reservedAmount r.amountRequested
              * jsOrRat d.bufferPercentage 0 / 100 :=
            div_nonneg (mul_nonneg hbase.le hpct) (by norm_num)
          simp only [approveUpd, calculateTotalReserved]
          linarith

/-- A valid approval body that omits the reserved amount. -/
def d9 : ApprovalData := ⟨"approved, thanks", none, some 5⟩

/-- The row produced by approving `c5Req` with `d9`. -/
def d9Approved : BudgetRequest :=
  approveUpd d9 uFin
    (calculateTotalReserved (jsOrRat d9.reservedAmount c5Req.amountRequested)
      (jsOrRat d9.bufferPercentage 0)) c5Req

/-- Witness for C9 on the concrete 50000-request approval with `d9`. -/
theorem approve_zero_base_fallback_witness :
    jsOrRat (some 0) c5Req.amountRequested = jsOrRat none c5Req.amountRequested
    ∧ ∃ t, d9Approved.reservedAmount = some t ∧ 0 < t :=
  approve_zero_base_fallback oraAll envQuiet c5Store 1 d9 uFin c5Req d9Approved
    (by decide) rfl (by decide) rfl

/-- The pending record created at the start of `sendNotification`. -/
def mkPendingRec (st : NotifState) (brId : Nat) (d : NotifData) : NotifRecord :=
  { id := st.nextId, budgetRequestId := brId, recipientUserId := d.recipientUserId,
    recipientEmail := d.recipientEmail, deliveryStatus := "pending",
    deliveryError := none }

/-- The catch-block `updateMany` row transformation: still-pending rows of
the request become failed. -/
def markFailed (brId : Nat) (rec : NotifRecord) : NotifRecord :=
  if rec.budgetRequestId = brId ∧ rec.deliveryStatus = "pending" then
    { rec with deliveryStatus := "failed", deliveryError := some "transport error" }
  else rec

/-- Claim C10: when a transport send fails inside `sendNotification`, the
catch-block `updateMany` marks EVERY still-pending notification record of
that budget request as failed — not only the one whose send failed — so with
several recipients one failed send can flip other recipients records from
pending to failed; the concrete two-admin run shows both records failed after
only the second send failed. -/
theorem email_failure_marks_all_pending (st : NotifState) (brId : Nat) (d : NotifData)
    (hemail : (d.recipientEmail != "") = true) :
    (∀ rec ∈ (sendNotification true true st brId d).records,
        rec.budgetRequestId = brId → rec.deliveryStatus ≠ "pending")
    ∧ (∀ rec ∈ st.records, rec.budgetRequestId = brId → rec.deliveryStatus = "pending" →
        ∃ rec2 ∈ (sendNotification true true st brId d).records,
          rec2.id = rec.id ∧ rec2.deliveryStatus = "failed")
    ∧ ((notifyAdmins true (fun n => decide (n = 1)) ⟨[], 0⟩ 7 0
          [⟨"a1", ""⟩, ⟨"a2", "b@x.com"⟩]).records.map (fun rec => rec.deliveryStatus))
        = ["failed", "failed"] := by
  have hred : (sendNotification true true st brId d).records
      = (st.records ++ [mkPendingRec st brId d]).map (markFailed brId) := by
    simp [sendNotification, hemail, mkPendingRec, markFailed]
  refine ⟨?_, ?_, by decide⟩
  · intro rec hmem hbr
    rw [hred] at hmem
    simp only [List.mem_map, List.mem_append] at hmem
    obtain ⟨x, _, rfl⟩ := hmem
    by_cases hc : x.budgetRequestId = brId ∧ x.deliveryStatus = "pending"
    · simp only [markFailed, if_pos hc]
      decide
    · simp only [markFailed, if_neg hc] at hbr ⊢
      intro hp
      exact hc ⟨hbr, hp⟩
  · intro rec hmem hbr hpend
    refine ⟨markFailed brId rec, ?_, ?_⟩
    · rw [hred]
      exact List.mem_map_of_mem _ (List.mem_append_left _ hmem)
    · simp [markFailed, hbr, hpend]

/-- A notification state with one pending record for request 7 (a recipient
without an e-mail address, left pending by an earlier call). -/
def stW : NotifState :=
  ⟨[⟨0, 7, "a1", "", "pending", none⟩], 1⟩

/-- The second recipient, whose send will fail. -/
def dW : NotifData := ⟨"a2", "b@x.com"⟩

/-- Witness for C10 on the concrete two-recipient state. -/
theorem email_failure_marks_all_pending_witness :
    (∀ rec ∈ (sendNotification true true stW 7 dW).records,
        rec.budgetRequestId = 7 → rec.deliveryStatus ≠ "pending")
    ∧ (∀ rec ∈ stW.records, rec.budgetRequestId = 7 → rec.deliveryStatus = "pending" →
        ∃ rec2 ∈ (sendNotification true true stW 7 dW).records,
          rec2.id = rec.id ∧ rec2.deliveryStatus = "failed")
    ∧ ((notifyAdmins true (fun n => decide (n = 1)) ⟨[], 0⟩ 7 0
          [⟨"a1", ""⟩, ⟨"a2", "b@x.com"⟩]).records.map (fun rec => rec.deliveryStatus))
        = ["failed", "failed"] :=
  email_failure_marks_all_pending stW 7 dW (by decide)

/-- The reservation invariant of one row: `reservedAmount` is non-null
exactly when the status is APPROVED. -/
def reservedIffApproved (r : BudgetRequest) : Prop :=
  r.reservedAmount.isSome = true ↔ r.status = Status.APPROVED

/-- Invariant of the whole store: the autoincrement discipline (ids unique
and below the counter) and the reservation invariant of every row. -/
def StoreInv (s : Store) : Prop :=
  (s.requests.map (fun r => r.id)).Nodup
  ∧ (∀ r ∈ s.requests, r.id < s.nextId)
  ∧ (∀ r ∈ s.requests, reservedIffApproved r)

/-- A found row belongs to the table and carries the searched id. -/
theorem findById_mem {s : Store} {id : Nat} {r : BudgetRequest}
    (h : findById s id = some r) : r ∈ s.requests ∧ r.id = id := by
  unfold findById at h
  refine ⟨List.mem_of_find?_eq_some h, ?_⟩
  have := List.find?_some h
  simpa using this

/-- A row update through the unique id keeps the store invariant provided the
new row keeps its id and satisfies the reservation invariant. -/
theorem storeInv_update {s s2 : Store} {id : Nat} {f : BudgetRequest → BudgetRequest}
    {r : BudgetRequest} (hinv : StoreInv s) (hfind : findById s id = some r)
    (hreq : s2.requests = updateReq s.requests id f) (hnext : s2.nextId = s.nextId)
    (hid : (f r).id = r.id) (hres : reservedIffApproved (f r)) : StoreInv s2 := by
  obtain ⟨hnd, hbound, hresv⟩ := hinv
  obtain ⟨hmem, hrid⟩ := findById_mem hfind
  have hsame : ∀ x ∈ s.requests, x.id = id → x = r := by
    intro x hx hxid
    exact List.inj_on_of_nodup_map hnd hx hmem (by rw [hxid, hrid])
  have hids : ∀ x ∈ s.requests, (if x.id = id then f x else x).id = x.id := by
    intro x hx
    by_cases hxid : x.id = id
    · have hxr := hsame x hx hxid
      subst hxr
      simp only [if_pos hxid, hid]
    · simp only [if_neg hxid]
  have hmap : (updateReq s.requests id f).map (fun x => x.id)
      = s.requests.map (fun x => x.id) := by
    unfold updateReq
    rw [List.map_map]
    exact List.map_congr_left hids
  refine ⟨?_, ?_, ?_⟩
  · rw [hreq, hmap]
    exact hnd
  · intro x hx
    rw [hreq] at hx
    unfold updateReq at hx
    obtain ⟨y, hy, hxy⟩ := List.mem_map.mp hx
    subst hxy
    rw [hnext, hids y hy]
    exact hbound y hy
  · intro x hx
    rw [hreq] at hx
    unfold updateReq at hx
    obtain ⟨y, hy, hxy⟩ := List.mem_map.mp hx
    subst hxy
    by_cases hyid : y.id = id
    · have hyr := hsame y hy hyid
      rw [if_pos hyid, hyr]
      exact hres
    · rw [if_neg hyid]
      exact hresv y hy

/-- A Joi-validated creation body can only start in DRAFT or SUBMITTED. -/
theorem validateCreate_status {inp : CreateInput} (h : validateCreate inp = true) :
    inp.status = none ∨ inp.status = some Status.DRAFT
      ∨ inp.status = some Status.SUBMITTED := by
  unfold validateCreate at h
  simp only [Bool.and_eq_true] at h
  have hst := h.2
  cases hstat : inp.status with
  | none => exact Or.inl rfl
  | some st =>
      cases st with
      | DRAFT => exact Or.inr (Or.inl rfl)
      | SUBMITTED => exact Or.inr (Or.inr rfl)
      | APPROVED => rw [hstat] at hst; cases hst
      | REJECTED => rw [hstat] at hst; cases hst
      | CANCELLED => rw [hstat] at hst; cases hst

/-- The create service keeps the store invariant for validated bodies. -/
theorem storeInv_createService (ora : Oracle) (b : CachedBudget) (s : Store)
    (inp : CreateInput) (u : UserCtx) (hinv : StoreInv s)
    (hv : validateCreate inp = true) :
    StoreInv (createService ora b s inp u).store := by
  obtain ⟨hnd, hbound, hresv⟩ := hinv
  unfold createService
  by_cases h0 : ora 0 = false
  · simp only [if_pos h0]
    exact ⟨hnd, hbound, hresv⟩
  · simp only [if_neg h0]
    refine ⟨?_, ?_, ?_⟩
    · simp only [List.map_append]
      refine List.Nodup.append hnd (by simp) ?_
      intro a ha hb
      simp only [List.map_cons, List.map_nil, List.mem_singleton, mkCreatedRow] at hb
      obtain ⟨y, hy, hya⟩ := List.mem_map.mp ha
      have := hbound y hy
      omega
    · intro x hx
      rcases List.mem_append.mp hx with hx | hx
      · exact Nat.lt_trans (hbound x hx) (Nat.lt_succ_self _)
      · simp only [List.mem_singleton] at hx
        subst hx
        simp only [mkCreatedRow]
        exact Nat.lt_succ_self _
    · intro x hx
      rcases List.mem_append.mp hx with hx | hx
      · exact hresv x hx
      · simp only [List.mem_singleton] at hx
        subst hx
        unfold reservedIffApproved
        simp only [mkCreatedRow]
        constructor
        · intro hsome
          simp at hsome
        · intro hap
          rcases validateCreate_status hv with hs | hs | hs <;>
            rw [hs] at hap <;> simp only [Option.getD] at hap <;> cases hap

/-- The create route keeps the store invariant. -/
theorem storeInv_createRoute (ora : Oracle) (env : DownstreamEnv) (b : CachedBudget)
    (s : Store) (inp : CreateInput) (u : UserCtx) (hinv : StoreInv s) :
    StoreInv (createRoute ora env b s inp u).store := by
  unfold createRoute
  by_cases hv : validateCreate inp = false
  · simp only [if_pos hv]
    exact hinv
  · simp only [if_neg hv]
    have hsvc := storeInv_createService ora b s inp u hinv (by
      cases hvb : validateCreate inp
      · exact absurd hvb hv
      · rfl)
    rcases hs : createService ora b s inp u with ⟨s1, o1, l1⟩
    rw [hs] at hsvc
    cases o1
    · exact hsvc
    · exact hsvc


/-- The Redis detail cache of `cacheService`: the `br:id` keys and the rows
stored under them. -/
abbrev DetailCache : Type := List (Nat × BudgetRequest)

/-- `redis.get` of `cacheService.getBudgetRequest`. -/
def cacheGet (c : DetailCache) (id : Nat) : Option BudgetRequest :=
  (c.find? (fun e => e.1 == id)).map (fun e => e.2)

/-- `redis.del` of `cacheService.invalidateBudgetRequest`. -/
def cacheDel (c : DetailCache) (id : Nat) : DetailCache :=
  c.filter (fun e => e.1 != id)

/-- `redis.setex` of `cacheService.cacheBudgetRequest`: overwrite the key
(modelled as delete-then-append, observationally the same for `cacheGet`). -/
def cacheSet (c : DetailCache) (id : Nat) (r : BudgetRequest) : DetailCache :=
  cacheDel c id ++ [(id, r)]

/-- State of the cache-explicit layer: the database tables plus the Redis
detail cache. -/
structure World where
  store : Store
  cache : DetailCache
  deriving Repr, DecidableEq

/-- `service.findById` with its Redis read-through explicit
(src/services/budgetRequest.service.ts line 295): a cached row is returned
as-is; on a miss the database row is fetched and cached before being
returned.  A failing `setex` would abort the call before any table write, so
the cache write is modelled as succeeding. -/
def findByIdCached (w : World) (id : Nat) : Option BudgetRequest × World :=
  match cacheGet w.cache id with
  | some r => (some r, w)
  | none =>
    match findById w.store id with
    | some r => (some r, { w with cache := cacheSet w.cache id r })
    | none => (none, w)

/-- Outcome of one cache-explicit service call. -/
structure SvcResultC where
  world : World
  outcome : Except String BudgetRequest
  logs : List String

/-- `service.submit` over the explicit cache: `prisma.budgetRequest.update`
works on the database row (oracle 0); `cacheService.invalidateBudgetRequest`
is the fallible `redis.del` (oracle 1) and ON ITS FAILURE THE STALE CACHE
ENTRY SURVIVES; then the admin e-mails (failures swallowed) and the
separate history insert (oracle 2). -/
def submitServiceC (ora : Oracle) (env : DownstreamEnv) (w : World) (id : Nat)
    (u : UserCtx) : SvcResultC :=
  match findById w.store id with
  | none => ⟨w, Except.error "Record to update not found", []⟩
  | some r =>
    if ora 0 = false then ⟨w, Except.error "database error on update", []⟩
    else
      let w1 : World := { w with store := { w.store with
          requests := updateReq w.store.requests id (submitUpd u) } }
      if ora 1 = false then ⟨w1, Except.error "cache invalidation failed", []⟩
      else
        let w2 : World := { w1 with cache := cacheDel w1.cache id }
        let logs := emailSendCall env.emailFails
        if ora 2 = false then ⟨w2, Except.error "database error on history insert", logs⟩
        else ⟨{ w2 with store := { w2.store with
                history := w2.store.history ++ [mkSubmitHistory id u] } },
              Except.ok (submitUpd u r), logs⟩

/-- `service.approve` over the explicit cache: the initial `findById` is the
CACHED read-through, and its row supplies the reservation base and the
history amounts; the transaction (oracle 0) updates the database row and
appends the history row; the `redis.del` is oracle 1, and on its failure the
stale entry survives; then reservation notify and e-mail, swallowed. -/
def approveServiceC (ora : Oracle) (env : DownstreamEnv) (w : World) (id : Nat)
    (d : ApprovalData) (u : UserCtx) : SvcResultC :=
  match findByIdCached w id with
  | (none, w0) => ⟨w0, Except.error "Budget request not found", []⟩
  | (some r, w0) =>
    let bc := calculateTotalReserved (jsOrRat d.reservedAmount r.amountRequested)
      (jsOrRat d.bufferPercentage 0)
    match findById w0.store id with
    | none => ⟨w0, Except.error "Record to update not found", []⟩
    | some dbRow =>
      if ora 0 = false then ⟨w0, Except.error "transaction failed", []⟩
      else
        let w1 : World := { w0 with store := { w0.store with
            requests := updateReq w0.store.requests id (approveUpd d u bc),
            history := w0.store.history ++ [mkApproveHistory id r d u bc] } }
        if ora 1 = false then ⟨w1, Except.error "cache invalidation failed", []⟩
        else ⟨{ w1 with cache := cacheDel w1.cache id },
              Except.ok (approveUpd d u bc dbRow),
              reserveNotifyCall env.reserveNotifyFails ++ emailSendCall env.emailFails⟩

/-- `service.reject` over the explicit cache, shaped like the approve
service without the reservation fields. -/
def rejectServiceC (ora : Oracle) (env : DownstreamEnv) (w : World) (id : Nat)
    (d : RejectionData) (u : UserCtx) : SvcResultC :=
  match findByIdCached w id with
  | (none, w0) => ⟨w0, Except.error "Budget request not found", []⟩
  | (some r, w0) =>
    match findById w0.store id with
    | none => ⟨w0, Except.error "Record to update not found", []⟩
    | some dbRow =>
      if ora 0 = false then ⟨w0, Except.error "transaction failed", []⟩
      else
        let w1 : World := { w0 with store := { w0.store with
            requests := updateReq w0.store.requests id (rejectUpd d u),
            history := w0.store.history ++ [mkRejectHistory id r d u] } }
        if ora 1 = false then ⟨w1, Except.error "cache invalidation failed", []⟩
        else ⟨{ w1 with cache := cacheDel w1.cache id },
              Except.ok (rejectUpd d u dbRow), emailSendCall env.emailFails⟩

/-- Outcome of one cache-explicit controller call. -/
structure CtrlResultC where
  world : World
  resp : Resp
  logs : List String

/-- `submitBudgetRequest` controller over the explicit cache: the guard
reads the row THROUGH the cache (`service.findById`), then ownership, then
the DRAFT-only check, then the service call. -/
def submitBudgetRequestC (ora : Oracle) (env : DownstreamEnv) (w : World) (id : Nat)
    (u : UserCtx) : CtrlResultC :=
  match findByIdCached w id with
  | (none, w0) => ⟨w0, Resp.notFound, []⟩
  | (some existing, w0) =>
    if existing.createdBy ≠ u.id ∧ roleIsAdmin u.role = false then ⟨w0, Resp.forbidden, []⟩
    else if existing.status ≠ Status.DRAFT then
      ⟨w0, Resp.badRequest "Only draft budget requests can be submitted", []⟩
    else
      match submitServiceC ora env w0 id u with
      | ⟨w1, Except.ok r1, logs⟩ =>
          ⟨w1, Resp.ok r1, logs ++ auditLogCall env.auditFails ++ webhookLogs env⟩
      | ⟨w1, Except.error e, logs⟩ => ⟨w1, Resp.serverError e, logs⟩

/-- `approveBudgetRequest` controller over the explicit cache: the
SUBMITTED-only guard reads the row through the cache. -/
def approveBudgetRequestC (ora : Oracle) (env : DownstreamEnv) (w : World) (id : Nat)
    (d : ApprovalData) (u : UserCtx) : CtrlResultC :=
  match findByIdCached w id with
  | (none, w0) => ⟨w0, Resp.notFound, []⟩
  | (some existing, w0) =>
    if existing.status ≠ Status.SUBMITTED then
      ⟨w0, Resp.badRequest "Only submitted budget requests can be approved", []⟩
    else
      match approveServiceC ora env w0 id d u with
      | ⟨w1, Except.ok r1, logs⟩ =>
          ⟨w1, Resp.ok r1, logs ++ auditLogCall env.auditFails ++ webhookLogs env⟩
      | ⟨w1, Except.error e, logs⟩ => ⟨w1, Resp.serverError e, logs⟩

/-- `rejectBudgetRequest` controller over the explicit cache. -/
def rejectBudgetRequestC (ora : Oracle) (env : DownstreamEnv) (w : World) (id : Nat)
    (d : RejectionData) (u : UserCtx) : CtrlResultC :=
  match findByIdCached w id with
  | (none, w0) => ⟨w0, Resp.notFound, []⟩
  | (some existing, w0) =>
    if existing.status ≠ Status.SUBMITTED then
      ⟨w0, Resp.badRequest "Only submitted budget requests can be rejected", []⟩
    else
      match rejectServiceC ora env w0 id d u with
      | ⟨w1, Except.ok r1, logs⟩ =>
          ⟨w1, Resp.ok r1, logs ++ auditLogCall env.auditFails ++ webhookLogs env⟩
      | ⟨w1, Except.error e, logs⟩ => ⟨w1, Resp.serverError e, logs⟩

/-- The approval route over the explicit cache: validation middleware in
front of the controller. -/
def approveRouteC (ora : Oracle) (env : DownstreamEnv) (w : World) (id : Nat)
    (d : ApprovalData) (u : UserCtx) : CtrlResultC :=
  if approvalDataValid d = false then ⟨w, Resp.validationFailed, []⟩
  else approveBudgetRequestC ora env w id d u

/-- The rejection route over the explicit cache. -/
def rejectRouteC (ora : Oracle) (env : DownstreamEnv) (w : World) (id : Nat)
    (d : RejectionData) (u : UserCtx) : CtrlResultC :=
  if rejectionDataValid d = false then ⟨w, Resp.validationFailed, []⟩
  else rejectBudgetRequestC ora env w id d u

/-- The creation route over the explicit cache: neither `service.create` nor
its controller reads or invalidates any `br:id` key (no detail row exists
for the fresh id), so the route only acts on the database side. -/
def createRouteC (ora : Oracle) (env : DownstreamEnv) (b : CachedBudget) (w : World)
    (inp : CreateInput) (u : UserCtx) : CtrlResultC :=
  let res := createRoute ora env b w.store inp u
  ⟨{ store := res.store, cache := w.cache }, res.resp, res.logs⟩

/-- Oracle on which the first primitive write (the transaction) succeeds and
the second (the cache-invalidation `redis.del`) fails. -/
def oraDelFail : Oracle := fun n => decide (n = 0)

/-- World after creating request 1 from the empty state. -/
def wAfterCreate : World :=
  (createRouteC oraAll envQuiet bEx ⟨⟨[], [], 1⟩, []⟩ inpEx uStaff).world

/-- World after submitting request 1. -/
def wAfterSubmit : World := (submitBudgetRequestC oraAll envQuiet wAfterCreate 1 uStaff).world

/-- World after an approve whose transaction committed but whose cache
invalidation failed: the database row is APPROVED with a reservation while
the cache still serves the SUBMITTED row read by the guard. -/
def wStaleApproved : World := (approveRouteC oraDelFail envQuiet wAfterSubmit 1 dEx uFin).world

/-- Counterexample to C2 as stated: on the reachable world `wStaleApproved`
the current (database) status of request 1 is APPROVED, yet reject succeeds
— its guard read the stale SUBMITTED row the failed invalidation left in the
cache — and it mutates the record and appends a history row, where the claim
demands an error and no mutation. -/
theorem transition_status_guards_counterexample :
    (findById wStaleApproved.store 1).map (fun r => r.status) = some Status.APPROVED
    ∧ (cacheGet wStaleApproved.cache 1).map (fun r => r.status) = some Status.SUBMITTED
    ∧ (rejectBudgetRequestC oraAll envQuiet wStaleApproved 1 rjEx uFin).resp.isOk = true
    ∧ (rejectBudgetRequestC oraAll envQuiet wStaleApproved 1 rjEx uFin).world.store.requests.map
        (fun r => r.status) = [Status.REJECTED]
    ∧ (rejectBudgetRequestC oraAll envQuiet wStaleApproved 1 rjEx uFin).world.store.history.length
        = wStaleApproved.store.history.length + 1 := by
  decide

/-- Counterexample to C4 as stated: continuing the same trace with the
reject, the sequence create, submit, approve (invalidation fails), reject of
the public operations reaches a record whose status is REJECTED while its
`reservedAmount` is still non-null. -/
theorem reserved_iff_approved_counterexample :
    (rejectBudgetRequestC oraAll envQuiet wStaleApproved 1 rjEx uFin).world.store.requests.map
        (fun r => (r.status, r.reservedAmount.isSome)) = [(Status.REJECTED, true)] := by
  decide

/-- The read-through never changes the database tables. -/
theorem findByIdCached_store (w : World) (id : Nat) :
    (findByIdCached w id).2.store = w.store := by
  unfold findByIdCached
  cases hc : cacheGet w.cache id
  · cases hdb : findById w.store id <;> rfl
  · rfl

/-- Claim C2 (amended): each transition guard is evaluated against the row
that `service.findById` serves — the cached row when the `br:id` key exists,
else the database row.  Submit succeeds only when the served status is
DRAFT, approve and reject only when it is SUBMITTED, and a non-matching
served status yields an error with the request and approval-history tables
unchanged.  When no cache entry exists for the id the served row IS the
current database row, which restores the original claim; after a failed
invalidation the served status can be stale and the original claim fails
(see the counterexample). -/
theorem transition_status_guards_cached (ora : Oracle) (env : DownstreamEnv) (w : World)
    (id : Nat) (u : UserCtx) (d : ApprovalData) (rj : RejectionData) (r : BudgetRequest)
    (w0 : World) (hserve : findByIdCached w id = (some r, w0)) :
    ((submitBudgetRequestC ora env w id u).resp.isOk = true → r.status = Status.DRAFT)
    ∧ (r.status ≠ Status.DRAFT →
        (submitBudgetRequestC ora env w id u).world.store = w.store
          ∧ (submitBudgetRequestC ora env w id u).resp.isOk = false)
    ∧ ((approveBudgetRequestC ora env w id d u).resp.isOk = true →
        r.status = Status.SUBMITTED)
    ∧ (r.status ≠ Status.SUBMITTED →
        (approveBudgetRequestC ora env w id d u).world.store = w.store
          ∧ (approveBudgetRequestC ora env w id d u).resp.isOk = false)
    ∧ ((rejectBudgetRequestC ora env w id rj u).resp.isOk = true →
        r.status = Status.SUBMITTED)
    ∧ (r.status ≠ Status.SUBMITTED →
        (rejectBudgetRequestC ora env w id rj u).world.store = w.store
          ∧ (rejectBudgetRequestC ora env w id rj u).resp.isOk = false)
    ∧ (cacheGet w.cache id = none → findById w.store id = some r) := by
  have hw0 : w0.store = w.store := by
    have hs := findByIdCached_store w id
    rw [hserve] at hs
    exact hs
  refine ⟨?_, ?_, ?_, ?_, ?_, ?_, ?_⟩
  · intro hok
    by_cases hst : r.status = Status.DRAFT
    · exact hst
    · simp only [submitBudgetRequestC, hserve] at hok
      by_cases hown : r.createdBy ≠ u.id ∧ roleIsAdmin u.role = false
      · rw [if_pos hown] at hok
        simp [Resp.isOk] at hok
      · rw [if_neg hown, if_pos hst] at hok
        simp [Resp.isOk] at hok
  · intro hne
    simp only [submitBudgetRequestC, hserve]
    by_cases hown : r.createdBy ≠ u.id ∧ roleIsAdmin u.role = false
    · rw [if_pos hown]
      exact ⟨hw0, rfl⟩
    · rw [if_neg hown, if_pos hne]
      exact ⟨hw0, rfl⟩
  · intro hok
    by_cases hst : r.status = Status.SUBMITTED
    · exact hst
    · simp only [approveBudgetRequestC, hserve, if_pos hst] at hok
      simp [Resp.isOk] at hok
  · intro hne
    simp only [approveBudgetRequestC, hserve, if_pos hne]
    exact ⟨hw0, rfl⟩
  · intro hok
    by_cases hst : r.status = Status.SUBMITTED
    · exact hst
    · simp only [rejectBudgetRequestC, hserve, if_pos hst] at hok
      simp [Resp.isOk] at hok
  · intro hne
    simp only [rejectBudgetRequestC, hserve, if_pos hne]
    exact ⟨hw0, rfl⟩
  · intro hnone
    unfold findByIdCached at hserve
    rw [hnone] at hserve
    cases hdb : findById w.store id
    · rw [hdb] at hserve
      cases hserve
    · rw [hdb] at hserve
      simp only [Prod.mk.injEq, Option.some.injEq] at hserve
      rw [hserve.1]

/-- A coherent world: the APPROVED `c2Req` in the database, empty cache. -/
def wCoh : World := ⟨c2Store, []⟩

/-- The world after the guard read of `wCoh` cached the database row. -/
def wCohSet : World := ⟨c2Store, [(1, c2Req)]⟩

/-- Witness for the amended C2: with no cache entry the served row is the
current APPROVED record, so every transition is rejected with the tables
untouched. -/
theorem transition_status_guards_cached_witness :
    ((submitBudgetRequestC oraAll envQuiet wCoh 1 uStaff).resp.isOk = true →
        c2Req.status = Status.DRAFT)
    ∧ (c2Req.status ≠ Status.DRAFT →
        (submitBudgetRequestC oraAll envQuiet wCoh 1 uStaff).world.store = wCoh.store
          ∧ (submitBudgetRequestC oraAll envQuiet wCoh 1 uStaff).resp.isOk = false)
    ∧ ((approveBudgetRequestC oraAll envQuiet wCoh 1 dEx uFin).resp.isOk = true →
        c2Req.status = Status.SUBMITTED)
    ∧ (c2Req.status ≠ Status.SUBMITTED →
        (approveBudgetRequestC oraAll envQuiet wCoh 1 dEx uFin).world.store = wCoh.store
          ∧ (approveBudgetRequestC oraAll envQuiet wCoh 1 dEx uFin).resp.isOk = false)
    ∧ ((rejectBudgetRequestC oraAll envQuiet wCoh 1 rjEx uFin).resp.isOk = true →
        c2Req.status = Status.SUBMITTED)
    ∧ (c2Req.status ≠ Status.SUBMITTED →
        (rejectBudgetRequestC oraAll envQuiet wCoh 1 rjEx uFin).world.store = wCoh.store
          ∧ (rejectBudgetRequestC oraAll envQuiet wCoh 1 rjEx uFin).resp.isOk = false)
    ∧ (cacheGet wCoh.cache 1 = none → findById wCoh.store 1 = some c2Req) :=
  transition_status_guards_cached oraAll envQuiet wCoh 1 uStaff dEx rjEx c2Req wCohSet
    (by decide)

/-- Coherence of the detail cache: every cached row equals the database row
of the same id. -/
def CacheCoherent (w : World) : Prop :=
  ∀ e ∈ w.cache, findById w.store e.1 = some e.2

/-- Invariant of the cache-explicit state: the store invariant plus cache
coherence. -/
def WorldInv (w : World) : Prop := StoreInv w.store ∧ CacheCoherent w

/-- A coherent cache hit serves the database row. -/
theorem cacheGet_coherent {w : World} {id : Nat} {r : BudgetRequest}
    (hco : CacheCoherent w) (hget : cacheGet w.cache id = some r) :
    findById w.store id = some r := by
  unfold cacheGet at hget
  cases hfind : w.cache.find? (fun e => e.1 == id) with
  | none => rw [hfind] at hget; cases hget
  | some e =>
      rw [hfind] at hget
      simp only [Option.map_some'] at hget
      have hmem := List.mem_of_find?_eq_some hfind
      have hkey : e.1 = id := by simpa using List.find?_some hfind
      have hdb := hco e hmem
      rw [hkey, hget] at hdb
      exact hdb

/-- What a successful cached lookup guarantees on a coherent world: the
served row is the database row, the tables are untouched, and the invariant
survives the read-through caching. -/
theorem findByIdCached_spec {w : World} {id : Nat} {r : BudgetRequest} {w0 : World}
    (hinv : WorldInv w) (h : findByIdCached w id = (some r, w0)) :
    findById w.store id = some r ∧ w0.store = w.store ∧ WorldInv w0 := by
  obtain ⟨hstore, hco⟩ := hinv
  unfold findByIdCached at h
  cases hc : cacheGet w.cache id with
  | some rc =>
      rw [hc] at h
      simp only [Prod.mk.injEq, Option.some.injEq] at h
      obtain ⟨h1, h2⟩ := h
      subst h1
      subst h2
      exact ⟨cacheGet_coherent hco hc, rfl, hstore, hco⟩
  | none =>
      rw [hc] at h
      cases hdb : findById w.store id with
      | none =>
          rw [hdb] at h
          simp at h
      | some rdb =>
          rw [hdb] at h
          simp only [Prod.mk.injEq, Option.some.injEq] at h
          obtain ⟨h1, h2⟩ := h
          subst h1
          subst h2
          refine ⟨rfl, rfl, hstore, ?_⟩
          intro e he
          simp only [cacheSet] at he
          rcases List.mem_append.mp he with he | he
          · exact hco e (List.mem_filter.mp he).1
          · simp only [List.mem_singleton] at he
            subst he
            exact hdb

/-- A failed cached lookup means the row exists nowhere. -/
theorem findByIdCached_none {w : World} {id : Nat} {w0 : World}
    (h : findByIdCached w id = (none, w0)) :
    findById w.store id = none ∧ w0 = w := by
  unfold findByIdCached at h
  cases hc : cacheGet w.cache id with
  | some rc =>
      rw [hc] at h
      simp at h
  | none =>
      rw [hc] at h
      cases hdb : findById w.store id with
      | none =>
          rw [hdb] at h
          simp only [Prod.mk.injEq] at h
          exact ⟨rfl, h.2.symm⟩
      | some rdb =>
          rw [hdb] at h
          simp at h

/-- A map whose function neither changes the tested key of any element nor
touches the elements satisfying the predicate leaves `find?` unchanged. -/
theorem find?_map_eq {α : Type} (g : α → α) (p : α → Bool) (l : List α)
    (hp : ∀ x ∈ l, p (g x) = p x) (hfix : ∀ x ∈ l, p x = true → g x = x) :
    (l.map g).find? p = l.find? p := by
  induction l with
  | nil => rfl
  | cons a t ih =>
      simp only [List.map_cons, List.find?]
      rw [hp a (by simp)]
      cases hpa : p a with
      | true =>
          simp only [hfix a (by simp) hpa]
      | false =>
          exact ih (fun x hx => hp x (by simp [hx])) (fun x hx => hfix x (by simp [hx]))

/-- Updating the row of one id and deleting its cache key keeps every other
cached row coherent (the update function preserves ids). -/
theorem coherent_after_update {s s2 : Store} {c : DetailCache} {id : Nat}
    {f : BudgetRequest → BudgetRequest}
    (hco : ∀ e ∈ c, findById s e.1 = some e.2)
    (hreq : s2.requests = updateReq s.requests id f)
    (hid : ∀ x, (f x).id = x.id) :
    ∀ e ∈ cacheDel c id, findById s2 e.1 = some e.2 := by
  intro e he
  obtain ⟨hmem, hne⟩ := List.mem_filter.mp he
  have hne2 : e.1 ≠ id := by simpa using hne
  have hp : ∀ x ∈ s.requests,
      ((if x.id = id then f x else x).id == e.1) = (x.id == e.1) := by
    intro x _
    by_cases hxid : x.id = id
    · rw [if_pos hxid, hid x]
    · rw [if_neg hxid]
  have hfix : ∀ x ∈ s.requests, (x.id == e.1) = true →
      (if x.id = id then f x else x) = x := by
    intro x _ hpx
    have hxe : x.id = e.1 := by simpa using hpx
    rw [if_neg (by rw [hxe]; exact hne2)]
  unfold findById at hco ⊢
  rw [hreq]
  unfold updateReq
  rw [find?_map_eq (fun x => if x.id = id then f x else x) (fun r => r.id == e.1)
    s.requests hp hfix]
  exact hco e hmem

/-- The submit service keeps the world invariant when it runs from DRAFT and
its cache invalidation (oracle 1) succeeds. -/
theorem worldInv_submitServiceC (ora : Oracle) (env : DownstreamEnv) (w0 : World)
    (id : Nat) (u : UserCtx) (r : BudgetRequest)
    (h1 : ora 1 = true) (hinv : WorldInv w0)
    (hdb : findById w0.store id = some r) (hst : r.status = Status.DRAFT) :
    WorldInv (submitServiceC ora env w0 id u).world := by
  obtain ⟨hstore, hco⟩ := hinv
  have hres : reservedIffApproved (submitUpd u r) := by
    have hiff := hstore.2.2 r (findById_mem hdb).1
    unfold reservedIffApproved at hiff ⊢
    simp only [submitUpd]
    constructor
    · intro hsome
      have hap := hiff.mp hsome
      rw [hst] at hap
      cases hap
    · intro hap
      cases hap
  have hs2 : StoreInv { w0.store with
      requests := updateReq w0.store.requests id (submitUpd u) } :=
    storeInv_update hstore hdb rfl rfl rfl hres
  have hco2 : ∀ e ∈ cacheDel w0.cache id,
      findById { w0.store with
        requests := updateReq w0.store.requests id (submitUpd u) } e.1 = some e.2 :=
    coherent_after_update hco rfl (fun x => rfl)
  unfold submitServiceC
  simp only [hdb]
  by_cases h0 : ora 0 = false
  · simp only [if_pos h0]
    exact ⟨hstore, hco⟩
  · simp only [if_neg h0]
    rw [if_neg (by simp [h1])]
    by_cases h2 : ora 2 = false
    · simp only [if_pos h2]
      exact ⟨hs2, hco2⟩
    · simp only [if_neg h2]
      exact ⟨hs2, hco2⟩

/-- The approve service keeps the world invariant when its cache
invalidation succeeds. -/
theorem worldInv_approveServiceC (ora : Oracle) (env : DownstreamEnv) (w0 : World)
    (id : Nat) (d : ApprovalData) (u : UserCtx)
    (h1 : ora 1 = true) (hinv : WorldInv w0) :
    WorldInv (approveServiceC ora env w0 id d u).world := by
  unfold approveServiceC
  rcases hf : findByIdCached w0 id with ⟨ro, w1⟩
  cases ro with
  | none =>
      obtain ⟨_, hw⟩ := findByIdCached_none hf
      simp only [hf]
      rw [hw]
      exact hinv
  | some r =>
      obtain ⟨hdb0, hsw, hinv1⟩ := findByIdCached_spec hinv hf
      simp only [hf]
      have hdb1 : findById w1.store id = some r := by
        rw [hsw]
        exact hdb0
      simp only [hdb1]
      by_cases h0 : ora 0 = false
      · simp only [if_pos h0]
        exact hinv1
      · simp only [if_neg h0]
        rw [if_neg (by simp [h1])]
        obtain ⟨hstore1, hco1⟩ := hinv1
        have hres : reservedIffApproved (approveUpd d u
            (calculateTotalReserved (jsOrRat d.reservedAmount r.amountRequested)
              (jsOrRat d.bufferPercentage 0)) r) := by
          unfold reservedIffApproved
          simp [approveUpd]
        exact ⟨storeInv_update hstore1 hdb1 rfl rfl rfl hres,
               coherent_after_update hco1 rfl (fun x => rfl)⟩

/-- The reject service keeps the world invariant when the database row is
SUBMITTED and its cache invalidation succeeds. -/
theorem worldInv_rejectServiceC (ora : Oracle) (env : DownstreamEnv) (w0 : World)
    (id : Nat) (d : RejectionData) (u : UserCtx) (r : BudgetRequest)
    (h1 : ora 1 = true) (hinv : WorldInv w0)
    (hdb : findById w0.store id = some r) (hst : r.status = Status.SUBMITTED) :
    WorldInv (rejectServiceC ora env w0 id d u).world := by
  unfold rejectServiceC
  rcases hf : findByIdCached w0 id with ⟨ro, w1⟩
  cases ro with
  | none =>
      obtain ⟨hnone, _⟩ := findByIdCached_none hf
      rw [hnone] at hdb
      cases hdb
  | some r2 =>
      obtain ⟨hdb0, hsw, hinv1⟩ := findByIdCached_spec hinv hf
      have hr2 : r2 = r := by
        rw [hdb0] at hdb
        exact (Option.some.injEq r2 r).mp hdb
      subst hr2
      simp only [hf]
      have hdb1 : findById w1.store id = some r2 := by
        rw [hsw]
        exact hdb0
      simp only [hdb1]
      by_cases h0 : ora 0 = false
      · simp only [if_pos h0]
        exact hinv1
      · simp only [if_neg h0]
        rw [if_neg (by simp [h1])]
        obtain ⟨hstore1, hco1⟩ := hinv1
        have hres : reservedIffApproved (rejectUpd d u r2) := by
          have hiff := hstore1.2.2 r2 (findById_mem hdb1).1
          unfold reservedIffApproved at hiff ⊢
          simp only [rejectUpd]
          constructor
          · intro hsome
            have hap := hiff.mp hsome
            rw [hst] at hap
            cases hap
          · intro hap
            cases hap
        exact ⟨storeInv_update hstore1 hdb1 rfl rfl rfl hres,
               coherent_after_update hco1 rfl (fun x => rfl)⟩

/-- The create route leaves the store alone or appends exactly the new row. -/
theorem createRoute_store_shape (ora : Oracle) (env : DownstreamEnv) (b : CachedBudget)
    (s : Store) (inp : CreateInput) (u : UserCtx) :
    (createRoute ora env b s inp u).store = s
    ∨ (createRoute ora env b s inp u).store.requests
        = s.requests ++ [mkCreatedRow b s inp u] := by
  unfold createRoute createService
  by_cases hv : validateCreate inp = false
  · simp only [if_pos hv]
    exact Or.inl trivial
  · simp only [if_neg hv]
    by_cases h0 : ora 0 = false
    · simp only [if_pos h0]
      exact Or.inl trivial
    · simp only [if_neg h0]
      exact Or.inr trivial

/-- The create route keeps the world invariant (it never touches the detail
cache and only appends a fresh row to the table). -/
theorem worldInv_createRouteC (ora : Oracle) (env : DownstreamEnv) (b : CachedBudget)
    (w : World) (inp : CreateInput) (u : UserCtx) (hinv : WorldInv w) :
    WorldInv (createRouteC ora env b w inp u).world := by
  obtain ⟨hstore, hco⟩ := hinv
  constructor
  · exact storeInv_createRoute ora env b w.store inp u hstore
  · intro e he
    have hgoal : findById (createRoute ora env b w.store inp u).store e.1 = some e.2 := by
      rcases createRoute_store_shape ora env b w.store inp u with hsh | hsh
      · rw [hsh]
        exact hco e he
      · have hce := hco e he
        unfold findById at hce ⊢
        rw [hsh, List.find?_append, hce]
        rfl
    exact hgoal

/-- The submit controller keeps the world invariant when the cache
invalidation succeeds. -/
theorem worldInv_submitCtrlC (ora : Oracle) (env : DownstreamEnv) (w : World) (id : Nat)
    (u : UserCtx) (h1 : ora 1 = true) (hinv : WorldInv w) :
    WorldInv (submitBudgetRequestC ora env w id u).world := by
  unfold submitBudgetRequestC
  rcases hf : findByIdCached w id with ⟨ro, w0⟩
  cases ro with
  | none =>
      obtain ⟨_, hw⟩ := findByIdCached_none hf
      simp only [hf]
      rw [hw]
      exact hinv
  | some r =>
      obtain ⟨hdbw, hsw, hinv0⟩ := findByIdCached_spec hinv hf
      simp only [hf]
      by_cases hown : r.createdBy ≠ u.id ∧ roleIsAdmin u.role = false
      · simp only [if_pos hown]
        exact hinv0
      · simp only [if_neg hown]
        by_cases hst : r.status ≠ Status.DRAFT
        · simp only [if_pos hst]
          exact hinv0
        · simp only [if_neg hst]
          have hdb0 : findById w0.store id = some r := by
            rw [hsw]
            exact hdbw
          have hsvc := worldInv_submitServiceC ora env w0 id u r h1 hinv0 hdb0
            (not_not.mp hst)
          rcases hs : submitServiceC ora env w0 id u with ⟨w1, o1, l1⟩
          rw [hs] at hsvc
          cases o1
          · exact hsvc
          · exact hsvc

/-- The approve route keeps the world invariant when the cache invalidation
succeeds. -/
theorem worldInv_approveRouteC (ora : Oracle) (env : DownstreamEnv) (w : World) (id : Nat)
    (d : ApprovalData) (u : UserCtx) (h1 : ora 1 = true) (hinv : WorldInv w) :
    WorldInv (approveRouteC ora env w id d u).world := by
  unfold approveRouteC
  by_cases hvd : approvalDataValid d = false
  · simp only [if_pos hvd]
    exact hinv
  · simp only [if_neg hvd]
    unfold approveBudgetRequestC
    rcases hf : findByIdCached w id with ⟨ro, w0⟩
    cases ro with
    | none =>
        obtain ⟨_, hw⟩ := findByIdCached_none hf
        simp only [hf]
        rw [hw]
        exact hinv
    | some r =>
        obtain ⟨hdbw, hsw, hinv0⟩ := findByIdCached_spec hinv hf
        simp only [hf]
        by_cases hst : r.status ≠ Status.SUBMITTED
        · simp only [if_pos hst]
          exact hinv0
        · simp only [if_neg hst]
          have hsvc := worldInv_approveServiceC ora env w0 id d u h1 hinv0
          rcases hs : approveServiceC ora env w0 id d u with ⟨w1, o1, l1⟩
          rw [hs] at hsvc
          cases o1
          · exact hsvc
          · exact hsvc

/-- The reject route keeps the world invariant when the cache invalidation
succeeds. -/
theorem worldInv_rejectRouteC (ora : Oracle) (env : DownstreamEnv) (w : World) (id : Nat)
    (d : RejectionData) (u : UserCtx) (h1 : ora 1 = true) (hinv : WorldInv w) :
    WorldInv (rejectRouteC ora env w id d u).world := by
  unfold rejectRouteC
  by_cases hvd : rejectionDataValid d = false
  · simp only [if_pos hvd]
    exact hinv
  · simp only [if_neg hvd]
    unfold rejectBudgetRequestC
    rcases hf : findByIdCached w id with ⟨ro, w0⟩
    cases ro with
    | none =>
        obtain ⟨_, hw⟩ := findByIdCached_none hf
        simp only [hf]
        rw [hw]
        exact hinv
    | some r =>
        obtain ⟨hdbw, hsw, hinv0⟩ := findByIdCached_spec hinv hf
        simp only [hf]
        by_cases hst : r.status ≠ Status.SUBMITTED
        · simp only [if_pos hst]
          exact hinv0
        · simp only [if_neg hst]
          have hdb0 : findById w0.store id = some r := by
            rw [hsw]
            exact hdbw
          have hsvc := worldInv_rejectServiceC ora env w0 id d u r h1 hinv0 hdb0
            (not_not.mp hst)
          rcases hs : rejectServiceC ora env w0 id d u with ⟨w1, o1, l1⟩
          rw [hs] at hsvc
          cases o1
          · exact hsvc
          · exact hsvc

/-- The worlds reachable from the empty state by the public operations when
every transition whose writes begin also gets its cache invalidation
(`redis.del`, oracle index 1) through; the database writes may still fail at
any point, every downstream environment and resolved budget is allowed. -/
inductive ReachableC : World → Prop where
  | init : ReachableC ⟨⟨[], [], 1⟩, []⟩
  | create (ora : Oracle) (env : DownstreamEnv) (b : CachedBudget) (inp : CreateInput)
      (u : UserCtx) {w : World} :
      ReachableC w → ReachableC (createRouteC ora env b w inp u).world
  | submit (ora : Oracle) (env : DownstreamEnv) (id : Nat) (u : UserCtx) {w : World} :
      ora 1 = true → ReachableC w →
      ReachableC (submitBudgetRequestC ora env w id u).world
  | approve (ora : Oracle) (env : DownstreamEnv) (id : Nat) (d : ApprovalData)
      (u : UserCtx) {w : World} :
      ora 1 = true → ReachableC w →
      ReachableC (approveRouteC ora env w id d u).world
  | reject (ora : Oracle) (env : DownstreamEnv) (id : Nat) (d : RejectionData)
      (u : UserCtx) {w : World} :
      ora 1 = true → ReachableC w →
      ReachableC (rejectRouteC ora env w id d u).world

/-- Every world reachable with successful invalidations satisfies the full
invariant. -/
theorem worldInv_reachableC {w : World} (h : ReachableC w) : WorldInv w := by
  induction h with
  | init =>
      refine ⟨⟨List.nodup_nil, ?_, ?_⟩, ?_⟩ <;> intro r hr <;> cases hr
  | create ora env b inp u _ ih => exact worldInv_createRouteC ora env b _ inp u ih
  | submit ora env id u h1 _ ih => exact worldInv_submitCtrlC ora env _ id u h1 ih
  | approve ora env id d u h1 _ ih => exact worldInv_approveRouteC ora env _ id d u h1 ih
  | reject ora env id d u h1 _ ih => exact worldInv_rejectRouteC ora env _ id d u h1 ih

/-- Claim C4 (amended): in every state reachable from creation by the public
operations in which each transition also gets its cache-invalidation delete
through, a request carries a non-null `reservedAmount` exactly when its
status is APPROVED; when an invalidation fails, a later transition can act
on the stale cached row and break the biconditional (see the
counterexample). -/
theorem reserved_iff_approved_amended (w : World) (h : ReachableC w) :
    ∀ r ∈ w.store.requests, r.reservedAmount.isSome = true ↔ r.status = Status.APPROVED :=
  fun r hr => (worldInv_reachableC h).1.2.2 r hr

/-- The world after creating, submitting and approving one request with all
writes succeeding. -/
def w4WorldC : World :=
  (approveRouteC oraAll envQuiet
    (submitBudgetRequestC oraAll envQuiet
      (createRouteC oraAll envQuiet bEx ⟨⟨[], [], 1⟩, []⟩ inpEx uStaff).world 1 uStaff).world
    1 dEx uFin).world

/-- The single row of `w4WorldC`. -/
def w4TopC : BudgetRequest := w4WorldC.store.requests.getD 0 baseReq

/-- Witness for the amended C4 on the concrete create, submit, approve run. -/
theorem reserved_iff_approved_amended_witness :
    w4TopC.reservedAmount.isSome = true ↔ w4TopC.status = Status.APPROVED :=
  reserved_iff_approved_amended w4WorldC
    (ReachableC.approve oraAll envQuiet 1 dEx uFin rfl
      (ReachableC.submit oraAll envQuiet 1 uStaff rfl
        (ReachableC.create oraAll envQuiet bEx inpEx uStaff ReachableC.init)))
    w4TopC (List.mem_singleton_self w4TopC)
